import Mathlib

/-! # Image-captioning service: response normalisation and error mapping

A shallow embedding of the two request handlers of the repository
(`server.js`, the Express route `POST /api/analyze-image`, and
`api/analyze-image.js`, the serverless variant) together with the platform
functions they call (`String.prototype.match` on the pattern
`/\{[\s\S]*\}/`, `String.prototype.substring`, `JSON.parse`,
`JSON.stringify`, truthiness).

A JavaScript string is a finite sequence of UTF-16 code units; it is
modelled as a list of natural numbers, one per code unit.
-/

namespace ImageCaption

set_option maxRecDepth 20000

/-! ## Strings -/

/-- A JavaScript string: its sequence of UTF-16 code units, each a natural
number below `2 ^ 16`. -/
abbrev JSString := List Nat

/-- The code units of a source literal (all literals of the handlers are in
the Basic Multilingual Plane, one code unit per character). -/
def js (s : String) : JSString := s.toList.map Char.toNat

/-- Code unit of the opening brace. -/
def lbrace : Nat := 0x7B

/-- Code unit of the closing brace. -/
def rbrace : Nat := 0x7D

/-- The method `String.prototype.substring(i, j)` for `0 ≤ i ≤ j`: the code
units from index `i` up to, not including, index `j`, as far as they exist. -/
def substring (s : JSString) (i j : Nat) : JSString := (s.drop i).take (j - i)

/-! ## The pattern `/\{[\s\S]*\}/` -/

/-- The character class `\s` of ECMAScript regular expressions (WhiteSpace
and LineTerminator code points). -/
def isRegexSpace (c : Nat) : Bool :=
  c = 0x09 || c = 0x0A || c = 0x0B || c = 0x0C || c = 0x0D || c = 0x20 ||
  c = 0xA0 || c = 0x1680 || (0x2000 ≤ c && c ≤ 0x200A) || c = 0x2028 ||
  c = 0x2029 || c = 0x202F || c = 0x205F || c = 0x3000 || c = 0xFEFF

/-- The class `[\s\S]`: the union of `\s` and its complement `\S`. -/
def inSpaceOrNonSpace (c : Nat) : Bool := isRegexSpace c || !isRegexSpace c

/-- Backtracking match of the tail `[\s\S]*\}` of the pattern at the start of
`t`. The star is greedy: it first takes one more code unit of the class and
continues; only when the continuation fails does it give the unit back, and
then `\}` has to match at this position. The result is the text consumed. -/
def matchStarClose : JSString → Option JSString
  | [] => none
  | c :: t =>
    match (if inSpaceOrNonSpace c then matchStarClose t else none) with
    | some m => some (c :: m)
    | none => if c = rbrace then some [c] else none

/-- One match attempt of the whole pattern, anchored at the start of `t`. -/
def matchHere : JSString → Option JSString
  | [] => none
  | c :: t => if c = lbrace then (matchStarClose t).map (fun m => c :: m) else none

/-- The expression `content.match(/\{[\s\S]*\}/)` followed by `jsonMatch[0]`:
the pattern has no global flag, so the start positions are tried from the
left and the first successful attempt is the match; `none` is `null`. -/
def jsonMatch : JSString → Option JSString
  | [] => none
  | c :: t =>
    match matchHere (c :: t) with
    | some m => some m
    | none => jsonMatch t

/-! ## JSON values -/

/-- A JSON number as written: sign, the digits of the integer and fraction
parts read as one decimal numeral, and the power of ten that scales them. Its
mathematical value is `± mant * 10 ^ exp`; the Number it denotes is the
IEEE-754 double nearest to that value. -/
structure JNumber where
  neg : Bool
  mant : Nat
  exp : Int
  deriving DecidableEq

/-- The double nearest to the value is `+0` or `-0`: the value is zero or at
most `2 ^ (-1075)`, half of the least positive double (a tie rounds to the
even neighbour, which is zero). Only the truthiness of a number depends on
this. -/
def JNumber.roundsToZero (n : JNumber) : Bool :=
  n.mant = 0 || (n.exp < 0 && n.mant * 2 ^ 1075 ≤ 10 ^ (-n.exp).toNat)

/-- A value produced by `JSON.parse`. An object is the list of its own
properties in creation order, with distinct keys; the order in which an engine
enumerates integer-like keys is not modelled. -/
inductive Json where
  | null
  | bool (b : Bool)
  | num (n : JNumber)
  | str (s : JSString)
  | arr (xs : List Json)
  | obj (props : List (JSString × Json))

mutual
/-- Decision procedure for equality of JSON values. -/
def Json.decEq : (a b : Json) → Decidable (a = b)
  | .null, .null => isTrue rfl
  | .bool a, .bool b =>
    if h : a = b then isTrue (by rw [h]) else isFalse (by intro e; cases e; exact h rfl)
  | .num a, .num b =>
    if h : a = b then isTrue (by rw [h]) else isFalse (by intro e; cases e; exact h rfl)
  | .str a, .str b =>
    if h : a = b then isTrue (by rw [h]) else isFalse (by intro e; cases e; exact h rfl)
  | .arr a, .arr b =>
    match Json.decEqList a b with
    | isTrue h => isTrue (by rw [h])
    | isFalse h => isFalse (by intro e; cases e; exact h rfl)
  | .obj a, .obj b =>
    match Json.decEqProps a b with
    | isTrue h => isTrue (by rw [h])
    | isFalse h => isFalse (by intro e; cases e; exact h rfl)
  | .null, .bool _ | .null, .num _ | .null, .str _ | .null, .arr _ | .null, .obj _
  | .bool _, .null | .bool _, .num _ | .bool _, .str _ | .bool _, .arr _ | .bool _, .obj _
  | .num _, .null | .num _, .bool _ | .num _, .str _ | .num _, .arr _ | .num _, .obj _
  | .str _, .null | .str _, .bool _ | .str _, .num _ | .str _, .arr _ | .str _, .obj _
  | .arr _, .null | .arr _, .bool _ | .arr _, .num _ | .arr _, .str _ | .arr _, .obj _
  | .obj _, .null | .obj _, .bool _ | .obj _, .num _ | .obj _, .str _ | .obj _, .arr _ =>
    isFalse (by intro e; cases e)
/-- Decision procedure for equality of lists of JSON values. -/
def Json.decEqList : (a b : List Json) → Decidable (a = b)
  | [], [] => isTrue rfl
  | [], _ :: _ | _ :: _, [] => isFalse (by intro e; cases e)
  | x :: xs, y :: ys =>
    match Json.decEq x y, Json.decEqList xs ys with
    | isTrue h, isTrue h2 => isTrue (by rw [h, h2])
    | isFalse h, _ => isFalse (by intro e; cases e; exact h rfl)
    | _, isFalse h => isFalse (by intro e; cases e; exact h rfl)
/-- Decision procedure for equality of property lists. -/
def Json.decEqProps : (a b : List (JSString × Json)) → Decidable (a = b)
  | [], [] => isTrue rfl
  | [], _ :: _ | _ :: _, [] => isFalse (by intro e; cases e)
  | (k, x) :: xs, (l, y) :: ys =>
    if hk : k = l then
      match Json.decEq x y, Json.decEqProps xs ys with
      | isTrue h, isTrue h2 => isTrue (by rw [hk, h, h2])
      | isFalse h, _ => isFalse (by intro e; cases e; exact h rfl)
      | _, isFalse h => isFalse (by intro e; cases e; exact h rfl)
    else isFalse (by intro e; cases e; exact hk rfl)
end

instance : DecidableEq Json := Json.decEq

/-- CreateDataProperty on an object under construction: a key that is already
present keeps its place and takes the new value, a new key is added last. -/
def defineProp : List (JSString × Json) → JSString → Json → List (JSString × Json)
  | [], k, v => [(k, v)]
  | (k0, v0) :: ps, k, v => if k0 = k then (k0, v) :: ps else (k0, v0) :: defineProp ps k v

/-- The object built from the members of an object literal, left to right. -/
def objectOfMembers (ms : List (JSString × Json)) : Json :=
  Json.obj (ms.foldl (fun acc kv => defineProp acc kv.1 kv.2) [])

/-- Property read `v.k` for a key that no prototype defines: the own property
of an object, `none` (`undefined`) when it is absent or `v` is a primitive or
an array. -/
def Json.getProp : Json → JSString → Option Json
  | .obj ps, k => (ps.find? (fun kv => kv.1 = k)).map (fun kv => kv.2)
  | _, _ => none

/-- ToBoolean on a JSON value. -/
def Json.truthy : Json → Bool
  | .null => false
  | .bool b => b
  | .num n => !n.roundsToZero
  | .str s => !s.isEmpty
  | .arr _ => true
  | .obj _ => true

/-- ToBoolean on the result of a property read (`undefined` is falsy). -/
def truthyProp : Option Json → Bool
  | none => false
  | some v => v.truthy

/-- The double nearest to the value is infinite: the value is at least
`2 ^ 1024 - 2 ^ 970`, halfway between the largest double and `2 ^ 1024` (a tie
rounds to the even neighbour, which is infinity). -/
def JNumber.overflows (n : JNumber) : Bool :=
  if 0 ≤ n.exp then decide (2 ^ 1024 - 2 ^ 970 ≤ n.mant * 10 ^ n.exp.toNat)
  else decide ((2 ^ 1024 - 2 ^ 970) * 10 ^ (-n.exp).toNat ≤ n.mant)

mutual
/-- The value that a reader of the text `JSON.stringify(v)` gets for a value
`v` that came from `JSON.parse`: an infinite number is written as `null`,
everything else is written so that it reads back as it was (a finite number
as a numeral of the same double, for which the model keeps the numeral). -/
def Json.wire : Json → Json
  | Json.null => Json.null
  | Json.bool b => Json.bool b
  | Json.num n => if n.overflows then Json.null else Json.num n
  | Json.str s => Json.str s
  | Json.arr xs => Json.arr (Json.wireList xs)
  | Json.obj props => Json.obj (Json.wireProps props)
/-- The elements of an array as sent. -/
def Json.wireList : List Json → List Json
  | [] => []
  | x :: xs => x.wire :: Json.wireList xs
/-- The properties of an object as sent. -/
def Json.wireProps : List (JSString × Json) → List (JSString × Json)
  | [] => []
  | (k, v) :: props => (k, v.wire) :: Json.wireProps props
end

/-! ## JSON.parse -/

/-- JSON white space: space, tab, line feed, carriage return. -/
def isJsonSpace (c : Nat) : Bool := c = 0x20 || c = 0x09 || c = 0x0A || c = 0x0D

/-- Drop leading JSON white space. -/
def skipSpace : JSString → JSString
  | [] => []
  | c :: t => if isJsonSpace c then skipSpace t else c :: t

/-- A decimal digit. -/
def isDigit (c : Nat) : Bool := 0x30 ≤ c && c ≤ 0x39

/-- Value of a hexadecimal digit, either case. -/
def hexValue (c : Nat) : Option Nat :=
  if 0x30 ≤ c && c ≤ 0x39 then some (c - 0x30)
  else if 0x61 ≤ c && c ≤ 0x66 then some (c - 0x61 + 10)
  else if 0x41 ≤ c && c ≤ 0x46 then some (c - 0x41 + 10)
  else none

/-- The code unit denoted by four hexadecimal digits. -/
def hex4 (a b c d : Nat) : Option Nat :=
  match hexValue a, hexValue b, hexValue c, hexValue d with
  | some x, some y, some z, some w => some (x * 4096 + y * 256 + z * 16 + w)
  | _, _, _, _ => none

/-- The code unit denoted by a single-character escape. -/
def simpleEscape (e : Nat) : Option Nat :=
  if e = 0x22 then some 0x22          -- \"
  else if e = 0x5C then some 0x5C     -- \\
  else if e = 0x2F then some 0x2F     -- \/
  else if e = 0x62 then some 0x08     -- \b
  else if e = 0x66 then some 0x0C     -- \f
  else if e = 0x6E then some 0x0A     -- \n
  else if e = 0x72 then some 0x0D     -- \r
  else if e = 0x74 then some 0x09     -- \t
  else none

/-- The characters of a JSON string after its opening quote, up to and
including the closing quote: the string value and the remaining input. -/
def parseStringChars : JSString → Option (JSString × JSString)
  | [] => none
  | c :: t =>
    if c = 0x22 then some ([], t)
    else if c = 0x5C then
      match t with
      | [] => none
      | e :: t2 =>
        if e = 0x75 then
          match t2 with
          | a :: b :: c2 :: d :: t3 =>
            match hex4 a b c2 d with
            | some u => (parseStringChars t3).map (fun r => (u :: r.1, r.2))
            | none => none
          | _ => none
        else
          match simpleEscape e with
          | some u => (parseStringChars t2).map (fun r => (u :: r.1, r.2))
          | none => none
    else if c < 0x20 then none
    else (parseStringChars t).map (fun r => (c :: r.1, r.2))

/-- The longest run of decimal digits at the start of the input, as digit
values, and the remaining input. -/
def takeDigits : JSString → List Nat × JSString
  | [] => ([], [])
  | c :: t =>
    if isDigit c then ((c - 0x30) :: (takeDigits t).1, (takeDigits t).2) else ([], c :: t)

/-- The numeral with the given decimal digits, most significant first. -/
def digitsValue (ds : List Nat) : Nat := ds.foldl (fun acc d => acc * 10 + d) 0

/-- The integer part of a JSON number: a single `0`, or a non-zero digit
followed by digits. -/
def parseIntPart : JSString → Option (List Nat × JSString)
  | [] => none
  | c :: t =>
    if c = 0x30 then some ([0], t)
    else if isDigit c then some (takeDigits (c :: t))
    else none

/-- The optional fraction part: a point followed by at least one digit. -/
def parseFraction : JSString → Option (List Nat × JSString)
  | [] => some ([], [])
  | c :: t =>
    if c = 0x2E then
      match takeDigits t with
      | ([], _) => none
      | (ds, r) => some (ds, r)
    else some ([], c :: t)

/-- The optional exponent part: `e` or `E`, an optional sign, and at least one
digit. -/
def parseExponent : JSString → Option (Int × JSString)
  | [] => some (0, [])
  | c :: t =>
    if c = 0x65 || c = 0x45 then
      match t with
      | [] => none
      | sgn :: t2 =>
        if sgn = 0x2D then
          match takeDigits t2 with
          | ([], _) => none
          | (ds, r) => some (-(digitsValue ds : Int), r)
        else if sgn = 0x2B then
          match takeDigits t2 with
          | ([], _) => none
          | (ds, r) => some ((digitsValue ds : Int), r)
        else
          match takeDigits (sgn :: t2) with
          | ([], _) => none
          | (ds, r) => some ((digitsValue ds : Int), r)
    else some (0, c :: t)

/-- An unsigned JSON number at the start of the input. -/
def parseUnsigned (neg : Bool) (s : JSString) : Option (Json × JSString) :=
  match parseIntPart s with
  | none => none
  | some (ids, s1) =>
    match parseFraction s1 with
    | none => none
    | some (fds, s2) =>
      match parseExponent s2 with
      | none => none
      | some (e, s3) =>
        some (Json.num ⟨neg, digitsValue (ids ++ fds), e - fds.length⟩, s3)

/-- A JSON number at the start of the input. -/
def parseNumber : JSString → Option (Json × JSString)
  | [] => none
  | c :: t => if c = 0x2D then parseUnsigned true t else parseUnsigned false (c :: t)

/-- Remove a literal word from the start of the input. -/
def stripWord : JSString → JSString → Option JSString
  | [], s => some s
  | _ :: _, [] => none
  | w :: ws, c :: t => if w = c then stripWord ws t else none

mutual
/-- A JSON value at the start of the input (leading white space already
skipped): the value and the remaining input. The first argument bounds the
number of nested calls. -/
def parseValue : Nat → JSString → Option (Json × JSString)
  | 0, _ => none
  | _ + 1, [] => none
  | fuel + 1, c :: t =>
    if c = 0x7B then
      match skipSpace t with
      | [] => none
      | d :: t2 =>
        if d = 0x7D then some (Json.obj [], t2)
        else (parseMembers fuel (d :: t2)).map (fun r => (objectOfMembers r.1, r.2))
    else if c = 0x5B then
      match skipSpace t with
      | [] => none
      | d :: t2 =>
        if d = 0x5D then some (Json.arr [], t2)
        else (parseElements fuel (d :: t2)).map (fun r => (Json.arr r.1, r.2))
    else if c = 0x22 then (parseStringChars t).map (fun r => (Json.str r.1, r.2))
    else if c = 0x74 then (stripWord (js "rue") t).map (fun r => (Json.bool true, r))
    else if c = 0x66 then (stripWord (js "alse") t).map (fun r => (Json.bool false, r))
    else if c = 0x6E then (stripWord (js "ull") t).map (fun r => (Json.null, r))
    else parseNumber (c :: t)
/-- The elements of a non-empty array, from the first element (white space
skipped) through the closing bracket. -/
def parseElements : Nat → JSString → Option (List Json × JSString)
  | 0, _ => none
  | fuel + 1, s =>
    match parseValue fuel s with
    | none => none
    | some (v, r) =>
      match skipSpace r with
      | [] => none
      | d :: r2 =>
        if d = 0x5D then some ([v], r2)
        else if d = 0x2C then
          (parseElements fuel (skipSpace r2)).map (fun q => (v :: q.1, q.2))
        else none
/-- The members of a non-empty object, from the first key (white space
skipped) through the closing brace, in source order. -/
def parseMembers : Nat → JSString → Option (List (JSString × Json) × JSString)
  | 0, _ => none
  | _ + 1, [] => none
  | fuel + 1, c :: t =>
    if c = 0x22 then
      match parseStringChars t with
      | none => none
      | some (k, r) =>
        match skipSpace r with
        | [] => none
        | colon :: r1 =>
          if colon = 0x3A then
            match parseValue fuel (skipSpace r1) with
            | none => none
            | some (v, r2) =>
              match skipSpace r2 with
              | [] => none
              | d :: r3 =>
                if d = 0x7D then some ([(k, v)], r3)
                else if d = 0x2C then
                  (parseMembers fuel (skipSpace r3)).map (fun q => ((k, v) :: q.1, q.2))
                else none
          else none
    else none
end

namespace JSON

/-- The function `JSON.parse` without a reviver: the value of a text that is
one JSON value between optional white space, `none` for a SyntaxError. Every
nested call consumes input, so one more than the length of the text bounds
the nesting (`parseValue_bound_adequate`). Resource limits of an engine
(a maximal nesting depth) are not part of the model. -/
def parse (text : JSString) : Option Json :=
  match parseValue (text.length + 1) (skipSpace text) with
  | none => none
  | some (v, r) => if skipSpace r = [] then some v else none

end JSON


/-! ## JSON.stringify on analysis results -/

/-- Leading (high) surrogate code unit. -/
def isHighSurrogate (c : Nat) : Bool := 0xD800 ≤ c && c ≤ 0xDBFF

/-- Trailing (low) surrogate code unit. -/
def isLowSurrogate (c : Nat) : Bool := 0xDC00 ≤ c && c ≤ 0xDFFF

/-- Lower-case hexadecimal digit of a value below sixteen. -/
def hexDigit (d : Nat) : Nat := if d < 10 then 0x30 + d else 0x61 + (d - 10)

/-- UnicodeEscape: a backslash, `u` and four lower-case hexadecimal digits. -/
def unicodeEscape (c : Nat) : JSString :=
  [0x5C, 0x75, hexDigit (c / 4096 % 16), hexDigit (c / 256 % 16), hexDigit (c / 16 % 16),
    hexDigit (c % 16)]

/-- QuoteJSONString on one code point that is a single code unit and not part
of a surrogate pair: the two-character escapes of the table, a Unicode escape
for the other controls and for a lone surrogate, the unit itself otherwise. -/
def quoteUnit (c : Nat) : JSString :=
  if c = 0x08 then [0x5C, 0x62]
  else if c = 0x09 then [0x5C, 0x74]
  else if c = 0x0A then [0x5C, 0x6E]
  else if c = 0x0C then [0x5C, 0x66]
  else if c = 0x0D then [0x5C, 0x72]
  else if c = 0x22 then [0x5C, 0x22]
  else if c = 0x5C then [0x5C, 0x5C]
  else if c < 0x20 || isHighSurrogate c || isLowSurrogate c then unicodeEscape c
  else [c]

/-- QuoteJSONString without the surrounding quotes: the string is read code
point by code point, a leading surrogate directly followed by a trailing one
being one code point, which is copied. -/
def quoteChars : JSString → JSString
  | [] => []
  | [c] => quoteUnit c
  | c :: d :: t =>
    if isHighSurrogate c && isLowSurrogate d then c :: d :: quoteChars t
    else quoteUnit c ++ quoteChars (d :: t)

/-- QuoteJSONString. -/
def quote (s : JSString) : JSString := 0x22 :: quoteChars s ++ [0x22]

/-- The texts joined by commas. -/
def joinComma : List JSString → JSString
  | [] => []
  | [x] => x
  | x :: y :: rest => x ++ 0x2C :: joinComma (y :: rest)

/-- SerializeJSONArray on an array of strings, no indentation. -/
def stringifyStrings (xs : List JSString) : JSString :=
  0x5B :: joinComma (xs.map quote) ++ [0x5D]

/-- The `analysis` part of an AnalysisResult. -/
structure Analysis where
  colors : List JSString
  objects : List JSString
  mood : JSString
  composition : JSString
  deriving DecidableEq

/-- The AnalysisResult of the data model. -/
structure AnalysisResult where
  altText : JSString
  description : JSString
  analysis : Analysis
  deriving DecidableEq

/-- The analysis as a JavaScript object. -/
def Analysis.toJson (a : Analysis) : Json :=
  Json.obj [(js "colors", Json.arr (a.colors.map Json.str)),
    (js "objects", Json.arr (a.objects.map Json.str)),
    (js "mood", Json.str a.mood),
    (js "composition", Json.str a.composition)]

/-- The result as a JavaScript object. -/
def AnalysisResult.toJson (r : AnalysisResult) : Json :=
  Json.obj [(js "altText", Json.str r.altText),
    (js "description", Json.str r.description),
    (js "analysis", r.analysis.toJson)]

/-- One member of SerializeJSONObject: the quoted key, a colon, the text of
the value. -/
def member (k v : JSString) : JSString := quote k ++ 0x3A :: v

/-- SerializeJSONObject on the keys and the texts of their values, no
indentation. -/
def stringifyMembers (ms : List (JSString × JSString)) : JSString :=
  0x7B :: joinComma (ms.map (fun m => member m.1 m.2)) ++ [0x7D]

/-- SerializeJSONObject on the analysis. -/
def Analysis.stringify (a : Analysis) : JSString :=
  stringifyMembers [(js "colors", stringifyStrings a.colors),
    (js "objects", stringifyStrings a.objects),
    (js "mood", quote a.mood),
    (js "composition", quote a.composition)]

namespace JSON

/-- The function `JSON.stringify` on an AnalysisResult, no indentation. -/
def stringify (r : AnalysisResult) : JSString :=
  stringifyMembers [(js "altText", quote r.altText),
    (js "description", quote r.description),
    (js "analysis", r.analysis.stringify)]

end JSON

/-- The text parses to the value, whatever follows it, once the nesting bound
is at least `b`. -/
def ParsesTo (text : JSString) (v : Json) (b : Nat) : Prop :=
  ∀ n rest, b ≤ n → parseValue n (text ++ rest) = some (v, rest)

/-- The text is not empty and does not begin with JSON white space. -/
def StartsSolid (text : JSString) : Prop :=
  ∃ c t, text = c :: t ∧ isJsonSpace c = false

/-! ## Requests, upstream outcomes and responses -/

/-- Base64 digit of a value below sixty-four. -/
def base64Char (n : Nat) : Nat :=
  if n < 26 then 0x41 + n
  else if n < 52 then 0x61 + (n - 26)
  else if n < 62 then 0x30 + (n - 52)
  else if n = 62 then 0x2B
  else 0x2F

/-- Base64 text of a byte sequence, with padding: `buffer.toString('base64')`. -/
def base64 : List Nat → JSString
  | [] => []
  | [a] => [base64Char (a / 4), base64Char (a % 4 * 16), 0x3D, 0x3D]
  | [a, b] =>
    [base64Char (a / 4), base64Char (a % 4 * 16 + b / 16), base64Char (b % 16 * 4), 0x3D]
  | a :: b :: c :: t =>
    base64Char (a / 4) :: base64Char (a % 4 * 16 + b / 16) ::
      base64Char (b % 16 * 4 + c / 64) :: base64Char (c % 64) :: base64 t

/-- The file that multer leaves in `req.file`: its bytes and declared type. -/
structure UploadedFile where
  buffer : List Nat
  mimetype : JSString
  deriving DecidableEq

/-- A header map: lower-case names with their values. -/
abbrev Headers := List (JSString × JSString)

/-- The parts of the incoming request that the handlers read. -/
structure Request where
  method : JSString
  headers : Headers
  file : Option UploadedFile
  deriving DecidableEq

/-- The value of `error.response` on a rejected upstream call: the HTTP status
and `data?.error?.message`, a string when the body carries one. -/
structure UpstreamResponse where
  status : Nat
  message : Option JSString
  deriving DecidableEq

/-- A thrown value as the catch blocks read it. -/
structure JsError where
  message : JSString
  response : Option UpstreamResponse
  code : Option JSString
  deriving DecidableEq

/-- What `await axios.post(...)` and the read of
`response.data.choices[0].message.content` give: a string reply; a content
that is not a string (`none` is `undefined`), on which `match` and `substring`
throw a TypeError; a 2xx body without `choices[0].message`, on which the read
itself throws a TypeError; or a rejection. -/
inductive Upstream where
  | reply (content : JSString)
  | nonString (content : Option Json)
  | malformed
  | rejected (error : JsError)
  deriving DecidableEq

/-- The upstream call as `axios.post` receives it. -/
structure OpenAIRequest where
  url : JSString
  authorization : JSString
  contentType : JSString
  model : JSString
  text : JSString
  imageUrl : JSString
  maxTokens : Nat
  temperature : JNumber
  timeout : Nat
  deriving DecidableEq

/-- An HTTP response of a handler: the status and the JSON value that a
client reads from the body (`none`: no body). -/
structure Response where
  status : Nat
  body : Option Json
  deriving DecidableEq

/-- Everything a handler run does that is observable: the response, the
header map written to the log (when one is written) and the upstream calls
issued. -/
structure Outcome where
  response : Response
  loggedHeaders : Option Headers
  upstreamCalls : List OpenAIRequest
  deriving DecidableEq

/-- The constant `OPENAI_API_URL`. -/
def OPENAI_API_URL : JSString := js "https://api.openai.com/v1/chat/completions"

/-- The instruction text of the prompt, the same template literal in both
handlers. -/
def promptText : JSString :=
  js "Please analyze this image and provide the following information in JSON format:\n" ++
    js "                            \n" ++
    js "                            \x7b\n" ++
    js "                                \"altText\": \"A concise alt text for accessibility (max 125 characters)\",\n" ++
    js "                                \"description\": \"A detailed description of what you see in the image (2-3 sentences)\",\n" ++
    js "                                \"analysis\": \x7b\n" ++
    js "                                    \"colors\": [\"color1\", \"color2\", \"color3\"],\n" ++
    js "                                    \"objects\": [\"object1\", \"object2\", \"object3\"],\n" ++
    js "                                    \"mood\": \"mood description\",\n" ++
    js "                                    \"composition\": \"composition description\"\n" ++
    js "                                \x7d\n" ++
    js "                            \x7d\n" ++
    js "                            \n" ++
    js "                            Focus on being descriptive and accurate. For alt text, prioritize accessibility and clarity."

/-- The template literal that builds `dataURI`. -/
def dataURI (file : UploadedFile) : JSString :=
  js "data:" ++ file.mimetype ++ js ";base64," ++ base64 file.buffer

/-- The TypeError thrown on a reply without usable content. -/
def typeError : JsError :=
  ⟨js "Cannot read properties of undefined", none, none⟩

/-- The body `\x7bsuccess: true, data\x7d` of a successful answer. -/
def successBody (data : Json) : Json :=
  Json.obj [(js "success", Json.bool true), (js "data", data)]

/-- The call `res.status(status).json(value)`: the body is the text
`JSON.stringify(value)`, recorded as the value a client reads from it. -/
def resJson (status : Nat) (value : Json) : Response :=
  ⟨status, some value.wire⟩

/-- A file part of a multipart body: the name of its field and the file. -/
structure FilePart where
  fieldname : JSString
  file : UploadedFile
  deriving DecidableEq

/-- A reason other than its file parts for which multer refuses a body: a
multipart text that cannot be parsed, or a text field whose name or value is
over the default limits. -/
inductive BodyDefect where
  | malformed
  | fieldNameTooLong
  | fieldValueTooLong
  deriving DecidableEq

/-- The error that multer reports for a defect. -/
def BodyDefect.error : BodyDefect → JsError
  | BodyDefect.malformed => ⟨js "Unexpected end of form", none, none⟩
  | BodyDefect.fieldNameTooLong => ⟨js "Field name too long", none, some (js "LIMIT_FIELD_KEY")⟩
  | BodyDefect.fieldValueTooLong =>
    ⟨js "Field value too long", none, some (js "LIMIT_FIELD_VALUE")⟩

/-- An incoming request before multer has run: method, headers, the file
parts of its body (none for a body that is not multipart) and the defect of
the body, if it has one. -/
structure Incoming where
  method : JSString
  headers : Headers
  files : List FilePart
  defect : Option BodyDefect
  deriving DecidableEq

/-- The middleware `upload.single('image')` of multer with the size limit of
both handlers, as the multer documentation describes it: a file part under
another field name, or a second file part, is refused with
`LIMIT_UNEXPECTED_FILE`, a file above ten megabytes with `LIMIT_FILE_SIZE`;
otherwise `req.file` is the file of the image field, if there is one. -/
def uploadSingle : List FilePart → Except JsError (Option UploadedFile)
  | [] => Except.ok none
  | part :: rest =>
    if part.fieldname ≠ js "image" then
      Except.error ⟨js "Unexpected field", none, some (js "LIMIT_UNEXPECTED_FILE")⟩
    else if part.file.buffer.length > 10 * 1024 * 1024 then
      Except.error ⟨js "File too large", none, some (js "LIMIT_FILE_SIZE")⟩
    else
      match rest with
      | [] => Except.ok (some part.file)
      | _ :: _ =>
        Except.error ⟨js "Unexpected field", none, some (js "LIMIT_UNEXPECTED_FILE")⟩

/-- The helper `parseMultipartData` of api/analyze-image.js, which is also
what the middleware `upload.single('image')` in the route of server.js does:
multer on the incoming request. -/
def parseMultipartData (incoming : Incoming) : Except JsError (Option UploadedFile) :=
  match incoming.defect with
  | some defect => Except.error defect.error
  | none => uploadSingle incoming.files

/-! ## server.js -/

namespace Server

/-- The copy `sanitizedHeaders` of `req.headers`: a truthy `authorization`
value is overwritten in the copy. -/
def sanitizedHeaders (headers : Headers) : Headers :=
  match headers.find? (fun kv => kv.1 = js "authorization") with
  | some kv =>
    if kv.2 ≠ [] then
      headers.map (fun h => if h.1 = js "authorization" then (h.1, js "Bearer [HIDDEN]") else h)
    else headers
  | none => headers

/-- The object `openAIRequest` with the options of the `axios.post` call. -/
def openAIRequest (OPENAI_API_KEY : JSString) (file : UploadedFile) : OpenAIRequest :=
  { url := OPENAI_API_URL
    authorization := js "Bearer " ++ OPENAI_API_KEY
    contentType := js "application/json"
    model := js "gpt-4o"
    text := promptText
    imageUrl := dataURI file
    maxTokens := 500
    temperature := ⟨false, 3, -1⟩
    timeout := 30000 }

/-- The object built in the inner `catch (parseError)` block. -/
def fallback (content : JSString) : Json :=
  Json.obj [
    (js "altText",
      Json.str (substring content 0 125 ++ (if content.length > 125 then js "..." else js ""))),
    (js "description", Json.str content),
    (js "analysis", Json.obj [
      (js "colors", Json.arr [Json.str (js "Various")]),
      (js "objects", Json.arr [Json.str (js "Multiple objects")]),
      (js "mood", Json.str (js "Neutral")),
      (js "composition", Json.str (js "Standard"))])]

/-- The inner `try` block: the match is parsed, a missing match throws; `none`
stands for either exception. -/
def tryParse (content : JSString) : Option Json :=
  match jsonMatch content with
  | some m => JSON.parse m
  | none => none

/-- The value of `parsedResponse` after the inner `try`/`catch`. -/
def parsedResponse (content : JSString) : Json :=
  match tryParse content with
  | some v => v
  | none => fallback content

/-- The rest of the outer `try` block after the reply is read: the structure
check, then the successful answer. -/
def respond (content : JSString) : Except JsError Response :=
  let p := parsedResponse content
  if !truthyProp (p.getProp (js "altText")) || !truthyProp (p.getProp (js "description")) then
    Except.error ⟨js "Invalid response structure from OpenAI", none, none⟩
  else
    Except.ok (resJson 200 (successBody p))

/-- The outer `catch (error)` block. Its bodies hold strings only, which
`res.json` sends as they are (`errorResponse_body_wire`). -/
def errorResponse (error : JsError) : Response :=
  match error.response with
  | some r =>
    let errorMessage :=
      match r.message with
      | some m => if m ≠ [] then m else js "AI service error"
      | none => js "AI service error"
    ⟨r.status, some (Json.obj [(js "error", Json.str (js "AI service error")),
      (js "details", Json.str errorMessage)])⟩
  | none =>
    if error.code = some (js "ECONNABORTED") then
      ⟨408, some (Json.obj [(js "error", Json.str (js "Request timeout")),
        (js "details", Json.str (js "The AI service took too long to respond"))])⟩
    else
      ⟨500, some (Json.obj [(js "error", Json.str (js "Internal server error")),
        (js "details", Json.str (js "Something went wrong processing your request"))])⟩

/-- The outer `try` block from the upstream call on. On a content that is
not a string `content.match` throws inside the inner `try`, and
`content.substring` throws again inside the inner `catch`. -/
def afterCall (result : Upstream) : Except JsError Response :=
  match result with
  | Upstream.reply content => respond content
  | Upstream.nonString (some (Json.str content)) => respond content
  | Upstream.nonString _ => Except.error typeError
  | Upstream.malformed => Except.error typeError
  | Upstream.rejected error => Except.error error

/-- The handler of `POST /api/analyze-image`; `post` is the upstream service
as seen through `axios.post`. -/
def handler (OPENAI_API_KEY : JSString) (req : Request) (post : OpenAIRequest → Upstream) :
    Outcome :=
  let logged := some (sanitizedHeaders req.headers)
  match req.file with
  | none =>
    ⟨⟨400, some (Json.obj [(js "error", Json.str (js "No image file provided"))])⟩, logged, []⟩
  | some file =>
    let request := openAIRequest OPENAI_API_KEY file
    match afterCall (post request) with
    | Except.ok response => ⟨response, logged, [request]⟩
    | Except.error error => ⟨errorResponse error, logged, [request]⟩

/-- The answer of the error-handling middleware at the end of server.js. -/
def errorMiddleware : Response :=
  ⟨500, some (Json.obj [(js "error", Json.str (js "Internal server error")),
    (js "details", Json.str (js "Something went wrong on the server"))])⟩

/-- The route `app.post('/api/analyze-image', upload.single('image'), ...)`:
multer runs first; its error goes to the error-handling middleware and the
handler is not called. The rate limiter in front of the route is not part of
the model. -/
def route (OPENAI_API_KEY : JSString) (incoming : Incoming)
    (post : OpenAIRequest → Upstream) : Outcome :=
  match parseMultipartData incoming with
  | Except.error _ => ⟨errorMiddleware, none, []⟩
  | Except.ok file => handler OPENAI_API_KEY ⟨incoming.method, incoming.headers, file⟩ post

end Server

/-! ## api/analyze-image.js -/

namespace Api

/-- The object `openAIRequest` with the options of the `axios.post` call. -/
def openAIRequest (OPENAI_API_KEY : JSString) (file : UploadedFile) : OpenAIRequest :=
  { url := OPENAI_API_URL
    authorization := js "Bearer " ++ OPENAI_API_KEY
    contentType := js "application/json"
    model := js "gpt-4o"
    text := promptText
    imageUrl := dataURI file
    maxTokens := 500
    temperature := ⟨false, 7, -1⟩
    timeout := 30000 }

/-- The object built in the inner `catch (parseError)` block. -/
def fallback (aiContent : JSString) : Json :=
  Json.obj [
    (js "altText", Json.str (js "Image analysis completed")),
    (js "description", Json.str aiContent),
    (js "analysis", Json.obj [
      (js "colors", Json.arr [Json.str (js "Various")]),
      (js "objects", Json.arr [Json.str (js "Multiple objects detected")]),
      (js "mood", Json.str (js "Analyzed")),
      (js "composition", Json.str (js "Standard composition"))])]

/-- The value of `parsedResponse` after the inner `try`/`catch`. -/
def parsedResponse (aiContent : JSString) : Json :=
  match (match jsonMatch aiContent with
    | some m => JSON.parse m
    | none => none) with
  | some v => v
  | none => fallback aiContent

/-- The outer `catch (error)` block. -/
def errorResponse (error : JsError) : Response :=
  match error.response with
  | some r =>
    let status := r.status
    let message :=
      match r.message with
      | some m => if m ≠ [] then m else js "OpenAI API error"
      | none => js "OpenAI API error"
    if status = 401 then
      ⟨401, some (Json.obj [(js "error", Json.str (js "Invalid API key"))])⟩
    else if status = 429 then
      ⟨429, some (Json.obj [(js "error", Json.str (js "Rate limit exceeded"))])⟩
    else if status = 400 then
      ⟨400, some (Json.obj [(js "error", Json.str (js "Invalid request to OpenAI"))])⟩
    else
      ⟨500, some (Json.obj [(js "error", Json.str (js "OpenAI API error: " ++ message))])⟩
  | none =>
    if error.code = some (js "ECONNABORTED") then
      ⟨408, some (Json.obj [(js "error", Json.str (js "Request timeout"))])⟩
    else
      ⟨500, some (Json.obj [(js "error", Json.str (js "Internal server error"))])⟩

/-- The object of the inner `catch (parseError)` block as it is sent when
`aiContent` is not a string: the block calls no method of `aiContent`, so it
completes; an `undefined` description is left out by `JSON.stringify`. -/
def fallbackOf (description : Option Json) : Json :=
  Json.obj ((js "altText", Json.str (js "Image analysis completed")) ::
    ((match description with
      | some d => [(js "description", d)]
      | none => []) ++
    [(js "analysis", Json.obj [
      (js "colors", Json.arr [Json.str (js "Various")]),
      (js "objects", Json.arr [Json.str (js "Multiple objects detected")]),
      (js "mood", Json.str (js "Analyzed")),
      (js "composition", Json.str (js "Standard composition"))])]))

/-- The outer `try` block from the upstream call on. On a content that is not
a string `aiContent.match` throws inside the inner `try` and the inner `catch`
builds the fallback around it. -/
def afterCall (result : Upstream) : Except JsError Response :=
  match result with
  | Upstream.reply aiContent => Except.ok (resJson 200 (successBody (parsedResponse aiContent)))
  | Upstream.nonString (some (Json.str aiContent)) =>
    Except.ok (resJson 200 (successBody (parsedResponse aiContent)))
  | Upstream.nonString description =>
    Except.ok (resJson 200 (successBody (fallbackOf description)))
  | Upstream.malformed => Except.error typeError
  | Upstream.rejected error => Except.error error

/-- The exported handler. `OPENAI_API_KEY` is `none` when the environment
variable is unset; `upload` is what `parseMultipartData(req)` settles to. -/
def handler (OPENAI_API_KEY : Option JSString) (req : Request)
    (upload : Except JsError (Option UploadedFile)) (post : OpenAIRequest → Upstream) :
    Outcome :=
  if req.method = js "OPTIONS" then ⟨⟨200, none⟩, none, []⟩
  else if req.method ≠ js "POST" then
    ⟨⟨405, some (Json.obj [(js "error", Json.str (js "Method not allowed"))])⟩, none, []⟩
  else
    match OPENAI_API_KEY with
    | none =>
      ⟨⟨500, some (Json.obj [(js "error", Json.str (js "OpenAI API key not configured"))])⟩,
        none, []⟩
    | some key =>
      if key = [] then
        ⟨⟨500, some (Json.obj [(js "error", Json.str (js "OpenAI API key not configured"))])⟩,
          none, []⟩
      else
        match upload with
        | Except.error error => ⟨errorResponse error, none, []⟩
        | Except.ok none =>
          ⟨⟨400, some (Json.obj [(js "error", Json.str (js "No image file provided"))])⟩,
            none, []⟩
        | Except.ok (some file) =>
          let request := openAIRequest key file
          match afterCall (post request) with
          | Except.ok response => ⟨response, none, [request]⟩
          | Except.error error => ⟨errorResponse error, none, [request]⟩

/-- The exported handler on an incoming request: `parseMultipartData` runs
`upload.single('image')` on it. -/
def serve (OPENAI_API_KEY : Option JSString) (incoming : Incoming)
    (post : OpenAIRequest → Upstream) : Outcome :=
  handler OPENAI_API_KEY ⟨incoming.method, incoming.headers, none⟩
    (parseMultipartData incoming) post

/-- The classification table as the specification words it, checked in order:
with an upstream response, 401, 429 and 400 give their fixed pairs and any
other status gives 500 with the upstream message, or the default when none is
present, after the fixed lead; without one, ECONNABORTED gives 408 and
everything else 500. -/
def classificationTable (error : JsError) : Nat × JSString :=
  match error.response with
  | some r =>
    if r.status = 401 then (401, js "Invalid API key")
    else if r.status = 429 then (429, js "Rate limit exceeded")
    else if r.status = 400 then (400, js "Invalid request to OpenAI")
    else
      (500, js "OpenAI API error: " ++
        (match r.message with
          | some m => m
          | none => js "OpenAI API error"))
  | none =>
    if error.code = some (js "ECONNABORTED") then (408, js "Request timeout")
    else (500, js "Internal server error")

/-- The status and the `error` text of a response. -/
def statusAndError (r : Response) : Option (Nat × JSString) :=
  match r.body with
  | some body =>
    match body.getProp (js "error") with
    | some (Json.str e) => some (r.status, e)
    | _ => none
  | none => none

end Api

/-! ## Header maps -/

/-- Property read `headers[name]` on a header map. -/
def headerValue (headers : Headers) (name : JSString) : Option JSString :=
  (headers.find? (fun kv => kv.1 = name)).map (fun kv => kv.2)

namespace Server

/-- The two header maps that exist after lines 49 to 52 of server.js: the map
of the request and the copy named `sanitizedHeaders`. -/
structure HeaderMaps where
  requestHeaders : Headers
  sanitizedHeaders : Headers
  deriving DecidableEq

/-- The constant `errorMessage` of the outer catch block: the upstream error
message, or the default text when it is absent or empty. -/
def errorMessage (message : Option JSString) : JSString :=
  match message with
  | some m => if m ≠ [] then m else js "AI service error"
  | none => js "AI service error"

/-- Lines 49 to 52 as state passing: the spread copies the map of the request,
then a truthy `authorization` value is overwritten in the copy. -/
def sanitizeHeaders (headers : Headers) : HeaderMaps :=
  let maps : HeaderMaps := ⟨headers, headers⟩
  match headerValue maps.sanitizedHeaders (js "authorization") with
  | some v =>
    if v ≠ [] then
      { maps with
        sanitizedHeaders := maps.sanitizedHeaders.map
          (fun h => if h.1 = js "authorization" then (h.1, js "Bearer [HIDDEN]") else h) }
    else maps
  | none => maps

end Server

/-! ## script.js: the client state -/

/-- The method `String.prototype.startsWith`. -/
def startsWith (s word : JSString) : Bool := word.isPrefixOf s

/-- A File object of the browser as the client reads it: its name, declared
type and size in bytes, and the data URL that a FileReader produces from it. -/
structure ClientFile where
  name : JSString
  type : JSString
  size : Nat
  dataURL : JSString
  deriving DecidableEq

/-- The global variables of script.js, the readers started by
`processImageFile` whose `onload` has not run yet, and the messages passed to
`showError` so far. -/
structure ClientState where
  selectedImage : Option JSString
  imageFile : Option ClientFile
  isAIMode : Bool
  pendingReaders : List ClientFile
  errors : List JSString
  deriving DecidableEq

/-- The state when the script has loaded. -/
def initialState : ClientState := ⟨none, none, true, [], []⟩

/-- The function `showError`, as far as the state records it. -/
def showError (st : ClientState) (message : JSString) : ClientState :=
  { st with errors := st.errors ++ [message] }

/-- The function `processImageFile`: the assignment to `imageFile`, then the
size check, then the start of a reader. -/
def processImageFile (st : ClientState) (file : ClientFile) : ClientState :=
  let st1 := { st with imageFile := some file }
  if file.size > 10 * 1024 * 1024 then
    showError st1 (js "Image size should be less than 10MB.")
  else
    { st1 with pendingReaders := st1.pendingReaders ++ [file] }

/-- The callback `reader.onload` of the pending reader at position `i`. -/
def readerLoad (st : ClientState) (i : Nat) : ClientState :=
  match st.pendingReaders[i]? with
  | some file =>
    { st with selectedImage := some file.dataURL
              pendingReaders := st.pendingReaders.eraseIdx i }
  | none => st

/-- The function `removeImage`, on the global variables. -/
def removeImage (st : ClientState) : ClientState :=
  { st with selectedImage := none, imageFile := none }

/-- The function `goHome`, on the global variables. -/
def goHome (st : ClientState) : ClientState :=
  { st with selectedImage := none, imageFile := none }

/-- The function `handleFileSelect` on the first file of the event, if any. -/
def handleFileSelect (st : ClientState) (file : Option ClientFile) : ClientState :=
  match file with
  | some f =>
    if startsWith f.type (js "image/") then processImageFile st f
    else showError st (js "Please select a valid image file.")
  | none => showError st (js "Please select a valid image file.")

/-- The function `handleDrop` on the files of the drop event. -/
def handleDrop (st : ClientState) (files : List ClientFile) : ClientState :=
  match files with
  | [] => st
  | f :: _ =>
    if startsWith f.type (js "image/") then processImageFile st f
    else showError st (js "Please drop a valid image file.")

/-- What `generateCaption` does first. -/
inductive CaptionAction where
  | refuse
  | upload (file : ClientFile)
  | simulate
  deriving DecidableEq

/-- The function `generateCaption` up to its first call: without a truthy
`selectedImage` and an `imageFile` it shows an error; in AI mode it passes
`imageFile` to `analyzeImageWithAI`, which posts it to the server. -/
def generateCaption (st : ClientState) : CaptionAction :=
  match st.selectedImage, st.imageFile with
  | some url, some file =>
    if url = [] then CaptionAction.refuse
    else if st.isAIMode then CaptionAction.upload file
    else CaptionAction.simulate
  | _, _ => CaptionAction.refuse

/-- The client operations that write `selectedImage` and `imageFile`. -/
inductive ClientOp where
  | processImageFile (file : ClientFile)
  | readerLoad (i : Nat)
  | removeImage
  | goHome
  deriving DecidableEq

/-- One operation. -/
def ClientOp.apply (st : ClientState) : ClientOp → ClientState
  | ClientOp.processImageFile file => ImageCaption.processImageFile st file
  | ClientOp.readerLoad i => ImageCaption.readerLoad st i
  | ClientOp.removeImage => ImageCaption.removeImage st
  | ClientOp.goHome => ImageCaption.goHome st

/-- A sequence of operations, from left to right. -/
def runClient (st : ClientState) (ops : List ClientOp) : ClientState :=
  ops.foldl ClientOp.apply st

/-- The size limit of the client and of multer: ten megabytes. -/
def maxFileSize : Nat := 10 * 1024 * 1024

/-- The invariant of the specification: when `selectedImage` and `imageFile`
are both set, `imageFile` is within the size limit. -/
def UploadWithinLimit (st : ClientState) : Prop :=
  ∀ url file, st.selectedImage = some url → url ≠ [] → st.imageFile = some file →
    file.size ≤ maxFileSize

/-! ## Sample inputs -/

/-- An uploaded PNG header. -/
def sampleFile : UploadedFile := ⟨[0x89, 0x50, 0x4E, 0x47], js "image/png"⟩

/-- A request that carries the sample file. -/
def sampleRequest : Request :=
  ⟨js "POST", [(js "content-type", js "multipart/form-data")], some sampleFile⟩

/-- A credential. -/
def sampleKey : JSString := js "sk-test"

/-- An upstream service that answers every call with the same content. -/
def replyWith (content : JSString) : OpenAIRequest → Upstream :=
  fun _ => Upstream.reply content

/-- An upstream service that rejects every call with the same error. -/
def rejectWith (error : JsError) : OpenAIRequest → Upstream :=
  fun _ => Upstream.rejected error

/-- A conforming analysis result. -/
def sampleResult : AnalysisResult :=
  ⟨js "A cat", js "A cat sits on a mat.",
    ⟨[js "grey", js "white"], [js "cat", js "mat"], js "calm", js "centred"⟩⟩

/-- The text of a small conforming object between its braces. -/
def smallObjectBody : JSString := js "\"altText\":\"a\",\"description\":\"b\""

/-- The object that the small conforming text denotes. -/
def smallObject : Json :=
  Json.obj [(js "altText", Json.str (js "a")), (js "description", Json.str (js "b"))]

/-- A reply of two hundred letters. -/
def twoHundredLetters : JSString := List.replicate 200 0x61

/-- A file that is not an image. -/
def textFile : UploadedFile := ⟨[0x68, 0x69], js "text/plain"⟩

/-- A request that carries the text file. -/
def textRequest : Request :=
  ⟨js "POST", [(js "content-type", js "multipart/form-data")], some textFile⟩

/-- A request without a file, with a client credential among its headers. -/
def emptyRequest : Request :=
  ⟨js "POST", [(js "host", js "localhost:3000"), (js "authorization", js "Bearer abc"),
    (js "accept", js "*/*")], none⟩

/-- A small image on the client. -/
def smallImage : ClientFile :=
  ⟨js "cat.png", js "image/png", 2048, js "data:image/png;base64,iVBORw=="⟩

/-- An image of eleven megabytes on the client. -/
def largeImage : ClientFile :=
  ⟨js "big.png", js "image/png", 11 * 1024 * 1024, js "data:image/png;base64,AAAA"⟩

/-- An upstream service that answers 401 and quotes the key it was sent. -/
def quotingUpstream : OpenAIRequest → Upstream :=
  fun request => Upstream.rejected ⟨js "Request failed with status code 401",
    some ⟨401, some (js "Incorrect API key provided: " ++ request.authorization.drop 7)⟩, none⟩

/-- A request whose body has no file part. -/
def bareIncoming : Incoming :=
  ⟨js "POST", [(js "content-type", js "multipart/form-data")], [], none⟩

/-- A request whose only file part is under the field name `file`. -/
def misnamedIncoming : Incoming :=
  ⟨js "POST", [(js "content-type", js "multipart/form-data")], [⟨js "file", sampleFile⟩],
    none⟩

/-! # Lemmas -/

/-! ### Lemmas on the pattern -/

theorem inSpaceOrNonSpace_true (c : Nat) : inSpaceOrNonSpace c = true := by
  unfold inSpaceOrNonSpace
  cases isRegexSpace c <;> rfl

theorem matchStarClose_nil : matchStarClose [] = none := rfl

theorem matchStarClose_unfold (c : Nat) (t : JSString) :
    matchStarClose (c :: t) =
      match (if inSpaceOrNonSpace c then matchStarClose t else none) with
      | some m => some (c :: m)
      | none => if c = rbrace then some [c] else none := rfl

theorem matchStarClose_cons (c : Nat) (t : JSString) :
    matchStarClose (c :: t) =
      match matchStarClose t with
      | some m => some (c :: m)
      | none => if c = rbrace then some [c] else none := by
  rw [matchStarClose_unfold, inSpaceOrNonSpace_true]
  simp only [if_true]

theorem matchStarClose_eq_none {t : JSString} :
    matchStarClose t = none ↔ rbrace ∉ t := by
  induction t with
  | nil => simp [matchStarClose_nil]
  | cons c t ih =>
    rw [matchStarClose_cons]
    cases h : matchStarClose t with
    | none =>
      have hn := ih.mp h
      by_cases hc : c = rbrace
      · simp [hc]
      · simp [hc, hn, Ne.symm hc]
    | some m =>
      have hn : ¬ rbrace ∉ t := fun hh => by
        have := ih.mpr hh
        rw [h] at this
        cases this
      simp only [reduceCtorEq, false_iff, List.mem_cons, not_or, not_and, not_not]
      intro _
      exact not_not.mp hn

/-- The greedy tail stops at the last closing brace. -/
theorem matchStarClose_append (mid post : JSString) (hpost : rbrace ∉ post) :
    matchStarClose (mid ++ rbrace :: post) = some (mid ++ [rbrace]) := by
  induction mid with
  | nil =>
    rw [List.nil_append, matchStarClose_cons, matchStarClose_eq_none.mpr hpost]
    simp
  | cons c mid ih =>
    rw [List.cons_append, matchStarClose_cons, ih]
    rfl

theorem matchStarClose_some {t m : JSString} (h : matchStarClose t = some m) :
    ∃ mid post, t = mid ++ rbrace :: post ∧ m = mid ++ [rbrace] ∧ rbrace ∉ post := by
  induction t generalizing m with
  | nil => simp [matchStarClose_nil] at h
  | cons c t ih =>
    rw [matchStarClose_cons] at h
    cases h2 : matchStarClose t with
    | none =>
      rw [h2] at h
      by_cases hc : c = rbrace
      · simp only [hc, if_true, Option.some.injEq] at h
        exact ⟨[], t, by simp [hc], by simp [← h], matchStarClose_eq_none.mp h2⟩
      · simp [hc] at h
    | some m2 =>
      rw [h2] at h
      simp only [Option.some.injEq] at h
      obtain ⟨mid, post, ht, hm, hp⟩ := ih h2
      exact ⟨c :: mid, post, by simp [ht], by simp [← h, hm], hp⟩

theorem matchHere_eq_none_of_ne {c : Nat} (t : JSString) (hc : c ≠ lbrace) :
    matchHere (c :: t) = none := by
  simp [matchHere, hc]

/-- The match skips everything before the first opening brace. -/
theorem jsonMatch_append_of_not_mem (pre t : JSString) (hpre : lbrace ∉ pre) :
    jsonMatch (pre ++ t) = jsonMatch t := by
  induction pre with
  | nil => rfl
  | cons c pre ih =>
    have hc : c ≠ lbrace := fun e => hpre (by simp [e])
    have hp : lbrace ∉ pre := fun e => hpre (by simp [e])
    rw [List.cons_append, jsonMatch, matchHere_eq_none_of_ne _ hc]
    exact ih hp

/-- Extraction lemma: with no opening brace before and no closing brace after,
the match is exactly the brace-delimited text. -/
theorem jsonMatch_extract (pre mid post : JSString)
    (hpre : lbrace ∉ pre) (hpost : rbrace ∉ post) :
    jsonMatch (pre ++ (lbrace :: mid ++ [rbrace]) ++ post) =
      some (lbrace :: mid ++ [rbrace]) := by
  rw [List.append_assoc, jsonMatch_append_of_not_mem _ _ hpre]
  have e : (lbrace :: mid ++ [rbrace]) ++ post = lbrace :: (mid ++ rbrace :: post) := by simp
  rw [e, jsonMatch]
  simp [matchHere, matchStarClose_append mid post hpost]

/-- No match exactly when no opening brace has a closing brace after it. -/
theorem jsonMatch_eq_none {s : JSString} :
    jsonMatch s = none ↔ ∀ pre t, s = pre ++ lbrace :: t → rbrace ∉ t := by
  induction s with
  | nil => simp [jsonMatch]
  | cons c s ih =>
    rw [jsonMatch]
    by_cases hc : c = lbrace
    · cases h : matchStarClose s with
      | none =>
        simp only [matchHere, hc, if_true, h, Option.map_none']
        rw [ih]
        constructor
        · intro hall pre t e
          cases pre with
          | nil =>
            simp only [List.nil_append, List.cons.injEq, true_and] at e
            rw [← e]
            exact matchStarClose_eq_none.mp h
          | cons p pre =>
            simp only [List.cons_append, List.cons.injEq] at e
            exact hall pre t e.2
        · intro hall pre t e
          exact hall (lbrace :: pre) t (by simp [e])
      | some m =>
        simp only [matchHere, hc, if_true, h, Option.map_some', reduceCtorEq, false_iff]
        intro hall
        have := hall [] s rfl
        rw [← matchStarClose_eq_none, h] at this
        cases this
    · rw [matchHere_eq_none_of_ne _ hc, ih]
      constructor
      · intro hall pre t e
        cases pre with
        | nil =>
          simp only [List.nil_append, List.cons.injEq] at e
          exact absurd e.1 hc
        | cons p pre =>
          simp only [List.cons_append, List.cons.injEq] at e
          exact hall pre t e.2
      · intro hall pre t e
        exact hall (c :: pre) t (by simp [e])

/-- A match is the text from the first opening brace through the last closing
brace, in list form. -/
theorem jsonMatch_some {s m : JSString} (h : jsonMatch s = some m) :
    ∃ pre mid post, s = pre ++ (lbrace :: mid ++ [rbrace]) ++ post ∧
      m = lbrace :: mid ++ [rbrace] ∧ lbrace ∉ pre ∧ rbrace ∉ post := by
  induction s with
  | nil => simp [jsonMatch] at h
  | cons c s ih =>
    rw [jsonMatch] at h
    by_cases hc : c = lbrace
    · cases h2 : matchStarClose s with
      | none =>
        simp only [matchHere, hc, if_true, h2, Option.map_none'] at h
        have hnone : jsonMatch s = none := by
          rw [jsonMatch_eq_none]
          intro pre t e
          rw [e] at h2
          have := matchStarClose_eq_none.mp h2
          intro hmem
          exact this (by simp [hmem])
        rw [hnone] at h
        cases h
      | some m2 =>
        simp only [matchHere, hc, if_true, h2, Option.map_some', Option.some.injEq] at h
        obtain ⟨mid, post, hs, hm, hp⟩ := matchStarClose_some h2
        exact ⟨[], mid, post, by simp [hc, hs], by simp [← h, hm], by simp, hp⟩
    · rw [matchHere_eq_none_of_ne _ hc] at h
      obtain ⟨pre, mid, post, hs, hm, hpre, hpost⟩ := ih h
      refine ⟨c :: pre, mid, post, by simp [hs], hm, ?_, hpost⟩
      simp only [List.mem_cons, not_or]
      exact ⟨Ne.symm hc, hpre⟩

/-- Index form of a brace-delimited decomposition. -/
theorem braces_index_form (pre mid post : JSString)
    (hpre : lbrace ∉ pre) (hpost : rbrace ∉ post) :
    let s := pre ++ (lbrace :: mid ++ [rbrace]) ++ post
    let i := pre.length
    let j := pre.length + mid.length + 1
    i < j ∧ s[i]? = some lbrace ∧ (∀ k, k < i → s[k]? ≠ some lbrace) ∧
      s[j]? = some rbrace ∧ (∀ k, j < k → s[k]? ≠ some rbrace) ∧
      lbrace :: mid ++ [rbrace] = substring s i (j + 1) := by
  intro s i j
  refine ⟨by omega, ?_, ?_, ?_, ?_, ?_⟩
  · show (pre ++ (lbrace :: mid ++ [rbrace]) ++ post)[pre.length]? = some lbrace
    rw [List.append_assoc, List.getElem?_append_right (Nat.le_refl _)]
    simp
  · intro k hk
    show (pre ++ (lbrace :: mid ++ [rbrace]) ++ post)[k]? ≠ some lbrace
    rw [List.append_assoc, List.getElem?_append_left hk]
    intro e
    exact hpre (List.getElem?_mem e)
  · show (pre ++ (lbrace :: mid ++ [rbrace]) ++ post)[pre.length + mid.length + 1]? = some rbrace
    have e : pre ++ (lbrace :: mid ++ [rbrace]) ++ post = (pre ++ lbrace :: mid) ++ rbrace :: post := by
      simp
    have hl : (pre ++ lbrace :: mid).length = pre.length + mid.length + 1 := by
      simp; omega
    rw [e, List.getElem?_append_right (by rw [hl]), hl]
    simp
  · intro k hk
    show (pre ++ (lbrace :: mid ++ [rbrace]) ++ post)[k]? ≠ some rbrace
    have hlen : (pre ++ (lbrace :: mid ++ [rbrace])).length = pre.length + mid.length + 2 := by
      simp; omega
    rw [List.getElem?_append_right (by rw [hlen]; omega)]
    intro e
    exact hpost (List.getElem?_mem e)
  · show lbrace :: mid ++ [rbrace] =
      ((pre ++ (lbrace :: mid ++ [rbrace]) ++ post).drop pre.length).take
        (pre.length + mid.length + 1 + 1 - pre.length)
    have hn : pre.length + mid.length + 1 + 1 - pre.length = (lbrace :: mid ++ [rbrace]).length := by
      simp; omega
    rw [hn, List.append_assoc, List.drop_left, List.take_left]

/-! ### Lemmas on JSON strings -/

set_option smartUnfolding false in
theorem parseStringChars_quote (t : JSString) : parseStringChars (0x22 :: t) = some ([], t) := rfl

set_option smartUnfolding false in
theorem parseStringChars_unicode (a b c d : Nat) (t : JSString) :
    parseStringChars (0x5C :: 0x75 :: a :: b :: c :: d :: t) =
      match hex4 a b c d with
      | some u => (parseStringChars t).map (fun r => (u :: r.1, r.2))
      | none => none := rfl

theorem parseStringChars_simple (e u : Nat) (t : JSString) (he : e ≠ 0x75)
    (hu : simpleEscape e = some u) :
    parseStringChars (0x5C :: e :: t) = (parseStringChars t).map (fun r => (u :: r.1, r.2)) := by
  rw [parseStringChars.eq_def]
  simp only [Nat.reduceEqDiff, if_false, if_true, if_neg he, hu]

theorem parseStringChars_plain (c : Nat) (t : JSString) (h1 : c ≠ 0x22) (h2 : c ≠ 0x5C)
    (h3 : ¬ c < 0x20) :
    parseStringChars (c :: t) = (parseStringChars t).map (fun r => (c :: r.1, r.2)) := by
  rw [parseStringChars.eq_def]
  simp only [if_neg h1, if_neg h2, if_neg h3]

theorem hexValue_hexDigit (d : Nat) (h : d < 16) : hexValue (hexDigit d) = some d := by
  interval_cases d <;> rfl

theorem hex4_unicodeEscape (c : Nat) (h : c < 65536) :
    hex4 (hexDigit (c / 4096 % 16)) (hexDigit (c / 256 % 16)) (hexDigit (c / 16 % 16))
      (hexDigit (c % 16)) = some c := by
  unfold hex4
  rw [hexValue_hexDigit _ (Nat.mod_lt _ (by norm_num)), hexValue_hexDigit _ (Nat.mod_lt _ (by norm_num)),
    hexValue_hexDigit _ (Nat.mod_lt _ (by norm_num)), hexValue_hexDigit _ (Nat.mod_lt _ (by norm_num))]
  show some (c / 4096 % 16 * 4096 + c / 256 % 16 * 256 + c / 16 % 16 * 16 + c % 16) = some c
  congr 1
  omega


theorem parseStringChars_quoteUnit (c : Nat) (t : JSString) :
    parseStringChars (quoteUnit c ++ t) = (parseStringChars t).map (fun r => (c :: r.1, r.2)) := by
  unfold quoteUnit
  split_ifs with h1 h2 h3 h4 h5 h6 h7 h8
  · subst h1; exact parseStringChars_simple _ _ _ (by decide) rfl
  · subst h2; exact parseStringChars_simple _ _ _ (by decide) rfl
  · subst h3; exact parseStringChars_simple _ _ _ (by decide) rfl
  · subst h4; exact parseStringChars_simple _ _ _ (by decide) rfl
  · subst h5; exact parseStringChars_simple _ _ _ (by decide) rfl
  · subst h6; exact parseStringChars_simple _ _ _ (by decide) rfl
  · subst h7; exact parseStringChars_simple _ _ _ (by decide) rfl
  · have hc : c < 65536 := by
      simp only [isHighSurrogate, isLowSurrogate, Bool.or_eq_true, Bool.and_eq_true,
        decide_eq_true_eq] at h8
      omega
    show parseStringChars (0x5C :: 0x75 :: _ :: _ :: _ :: _ :: t) = _
    rw [parseStringChars_unicode, hex4_unicodeEscape c hc]
  · simp only [Bool.or_eq_true, decide_eq_true_eq, not_or] at h8
    exact parseStringChars_plain c t h6 h7 h8.1.1

theorem parseStringChars_quoteChars (s rest : JSString) :
    parseStringChars (quoteChars s ++ 0x22 :: rest) = some (s, rest) := by
  induction s using quoteChars.induct with
  | case1 => exact parseStringChars_quote rest
  | case2 c =>
    rw [quoteChars, parseStringChars_quoteUnit, parseStringChars_quote]
    rfl
  | case3 c d t h ih =>
    rw [quoteChars, if_pos h]
    simp only [isHighSurrogate, isLowSurrogate, Bool.and_eq_true, decide_eq_true_eq] at h
    rw [List.cons_append, List.cons_append,
      parseStringChars_plain c _ (by omega) (by omega) (by omega),
      parseStringChars_plain d _ (by omega) (by omega) (by omega), ih]
    rfl
  | case4 c d t h ih =>
    rw [quoteChars, if_neg h, List.append_assoc, parseStringChars_quoteUnit, ih]
    rfl

/-! ### Lemmas on JSON values -/

theorem skipSpace_solid (c : Nat) (t : JSString) (h : isJsonSpace c = false) :
    skipSpace (c :: t) = c :: t := by
  rw [skipSpace, h]
  rfl

theorem skipSpace_of_startsSolid {text : JSString} (h : StartsSolid text) (rest : JSString) :
    skipSpace (text ++ rest) = text ++ rest := by
  obtain ⟨c, t, e, hc⟩ := h
  rw [e, List.cons_append, skipSpace_solid c _ hc]

theorem startsSolid_quote (s : JSString) : StartsSolid (quote s) :=
  ⟨0x22, quoteChars s ++ [0x22], by simp [quote], by decide⟩

theorem startsSolid_append {a : JSString} (h : StartsSolid a) (b : JSString) :
    StartsSolid (a ++ b) := by
  obtain ⟨c, t, e, hc⟩ := h
  exact ⟨c, t ++ b, by rw [e]; rfl, hc⟩

theorem parseValue_string (n : Nat) (t : JSString) :
    parseValue (n + 1) (0x22 :: t) = (parseStringChars t).map (fun r => (Json.str r.1, r.2)) := by
  rw [parseValue.eq_def]
  simp

theorem parsesTo_quote (s : JSString) : ParsesTo (quote s) (Json.str s) 1 := by
  intro n rest hn
  obtain ⟨m, rfl⟩ : ∃ m, n = m + 1 := ⟨n - 1, by omega⟩
  have e : quote s ++ rest = 0x22 :: (quoteChars s ++ 0x22 :: rest) := by
    simp [quote]
  rw [e, parseValue_string, parseStringChars_quoteChars]
  rfl

theorem parsesTo_mono {text : JSString} {v : Json} {b c : Nat} (h : ParsesTo text v b)
    (hbc : b ≤ c) : ParsesTo text v c :=
  fun n rest hn => h n rest (Nat.le_trans hbc hn)

theorem parseValue_array_empty (n : Nat) (rest : JSString) :
    parseValue (n + 1) (0x5B :: 0x5D :: rest) = some (Json.arr [], rest) := by
  rw [parseValue.eq_def]
  simp [skipSpace_solid 0x5D rest (by decide)]

theorem parseValue_array (n : Nat) (d : Nat) (t : JSString) (hs : isJsonSpace d = false)
    (hd : d ≠ 0x5D) :
    parseValue (n + 1) (0x5B :: d :: t) =
      (parseElements n (d :: t)).map (fun r => (Json.arr r.1, r.2)) := by
  rw [parseValue.eq_def]
  simp [skipSpace_solid d t hs, hd]

theorem parseValue_object (n : Nat) (d : Nat) (t : JSString) (hs : isJsonSpace d = false)
    (hd : d ≠ 0x7D) :
    parseValue (n + 1) (0x7B :: d :: t) =
      (parseMembers n (d :: t)).map (fun r => (objectOfMembers r.1, r.2)) := by
  rw [parseValue.eq_def]
  simp [skipSpace_solid d t hs, hd]

theorem parseElements_last (n : Nat) (s rest : JSString) (v : Json)
    (h : parseValue n s = some (v, 0x5D :: rest)) :
    parseElements (n + 1) s = some ([v], rest) := by
  rw [parseElements.eq_def]
  simp [h, skipSpace_solid 0x5D rest (by decide)]

theorem parseElements_more (n : Nat) (s r : JSString) (v : Json)
    (h : parseValue n s = some (v, 0x2C :: r)) :
    parseElements (n + 1) s =
      (parseElements n (skipSpace r)).map (fun q => (v :: q.1, q.2)) := by
  rw [parseElements.eq_def]
  simp [h, skipSpace_solid 0x2C r (by decide)]

theorem parseMembers_last (n : Nat) (k t r rest : JSString) (v : Json)
    (hk : parseStringChars t = some (k, 0x3A :: r))
    (hv : parseValue n (skipSpace r) = some (v, 0x7D :: rest)) :
    parseMembers (n + 1) (0x22 :: t) = some ([(k, v)], rest) := by
  rw [parseMembers.eq_def]
  simp [hk, hv, skipSpace_solid 0x3A r (by decide), skipSpace_solid 0x7D rest (by decide)]

theorem parseMembers_more (n : Nat) (k t r r2 : JSString) (v : Json)
    (hk : parseStringChars t = some (k, 0x3A :: r))
    (hv : parseValue n (skipSpace r) = some (v, 0x2C :: r2)) :
    parseMembers (n + 1) (0x22 :: t) =
      (parseMembers n (skipSpace r2)).map (fun q => ((k, v) :: q.1, q.2)) := by
  rw [parseMembers.eq_def]
  simp [hk, hv, skipSpace_solid 0x3A r (by decide), skipSpace_solid 0x2C r2 (by decide)]

/-- The elements of a non-empty array of strings parse back. -/
theorem parseElements_strings (x : JSString) (xs : List JSString) (rest : JSString) (n : Nat)
    (hn : xs.length + 2 ≤ n) :
    parseElements n (joinComma ((x :: xs).map quote) ++ 0x5D :: rest) =
      some ((x :: xs).map Json.str, rest) := by
  induction xs generalizing x n with
  | nil =>
    obtain ⟨m, rfl⟩ : ∃ m, n = m + 1 := ⟨n - 1, by simp at hn; omega⟩
    apply parseElements_last
    simp only [List.map, joinComma]
    exact parsesTo_quote x m _ (by simp at hn; omega)
  | cons y ys ih =>
    obtain ⟨m, rfl⟩ : ∃ m, n = m + 1 := ⟨n - 1, by simp at hn; omega⟩
    have hm : ys.length + 2 ≤ m := by simp at hn; omega
    have e : joinComma ((x :: y :: ys).map quote) ++ 0x5D :: rest =
        quote x ++ (0x2C :: (joinComma ((y :: ys).map quote) ++ 0x5D :: rest)) := by
      simp [joinComma]
    rw [e, parseElements_more m _ _ (Json.str x) (parsesTo_quote x m _ (by omega))]
    have hsol : StartsSolid (joinComma ((y :: ys).map quote)) := by
      cases ys with
      | nil => exact startsSolid_quote y
      | cons z zs => exact startsSolid_append (startsSolid_quote y) _
    rw [skipSpace_of_startsSolid hsol, ih y m hm]
    rfl

theorem parsesTo_stringifyStrings (xs : List JSString) :
    ParsesTo (stringifyStrings xs) (Json.arr (xs.map Json.str)) (xs.length + 2) := by
  intro n rest hn
  obtain ⟨m, rfl⟩ : ∃ m, n = m + 1 := ⟨n - 1, by omega⟩
  cases xs with
  | nil => exact parseValue_array_empty m rest
  | cons x xs =>
    have hsol : StartsSolid (joinComma ((x :: xs).map quote)) := by
      cases xs with
      | nil => exact startsSolid_quote x
      | cons z zs => exact startsSolid_append (startsSolid_quote x) _
    obtain ⟨c, t, e, hc⟩ := startsSolid_append hsol (0x5D :: rest)
    have hc2 : c ≠ 0x5D := by
      have : c = 0x22 := by
        cases xs with
        | nil => simp [joinComma, quote] at e; exact e.1.symm
        | cons z zs => simp [joinComma, quote] at e; exact e.1.symm
      omega
    have e2 : stringifyStrings (x :: xs) ++ rest =
        0x5B :: (joinComma ((x :: xs).map quote) ++ 0x5D :: rest) := by
      simp [stringifyStrings]
    rw [e2, e, parseValue_array m c t hc hc2, ← e,
      parseElements_strings x xs rest m (by simp at hn; omega)]
    rfl

theorem startsSolid_stringifyStrings (xs : List JSString) : StartsSolid (stringifyStrings xs) :=
  ⟨0x5B, joinComma (xs.map quote) ++ [0x5D], by simp [stringifyStrings], by decide⟩

/-- A member of an object under serialisation: key, text of the value, value. -/
theorem parseMembers_members (b : Nat) (m : JSString × JSString × Json)
    (ms : List (JSString × JSString × Json)) (rest : JSString) (n : Nat)
    (hall : ∀ x ∈ m :: ms, ParsesTo x.2.1 x.2.2 b ∧ StartsSolid x.2.1)
    (hn : ms.length + b + 1 ≤ n) :
    parseMembers n (joinComma ((m :: ms).map (fun x => member x.1 x.2.1)) ++ 0x7D :: rest) =
      some ((m :: ms).map (fun x => (x.1, x.2.2)), rest) := by
  induction ms generalizing m n with
  | nil =>
    obtain ⟨k, rfl⟩ : ∃ k, n = k + 1 := ⟨n - 1, by simp at hn; omega⟩
    obtain ⟨hp, hs⟩ := hall m (by simp)
    have e : joinComma ([m].map (fun x => member x.1 x.2.1)) ++ 0x7D :: rest =
        0x22 :: (quoteChars m.1 ++ 0x22 :: 0x3A :: (m.2.1 ++ 0x7D :: rest)) := by
      simp [joinComma, member, quote]
    rw [e]
    apply parseMembers_last k m.1 _ (m.2.1 ++ 0x7D :: rest) rest m.2.2
      (parseStringChars_quoteChars _ _)
    rw [skipSpace_of_startsSolid hs]
    exact hp k _ (by simp at hn; omega)
  | cons m2 ms ih =>
    obtain ⟨k, rfl⟩ : ∃ k, n = k + 1 := ⟨n - 1, by simp at hn; omega⟩
    obtain ⟨hp, hs⟩ := hall m (by simp)
    have hk : ms.length + b + 1 ≤ k := by simp at hn; omega
    have e : joinComma ((m :: m2 :: ms).map (fun x => member x.1 x.2.1)) ++ 0x7D :: rest =
        0x22 :: (quoteChars m.1 ++ 0x22 :: 0x3A :: (m.2.1 ++ 0x2C ::
          (joinComma ((m2 :: ms).map (fun x => member x.1 x.2.1)) ++ 0x7D :: rest))) := by
      simp [joinComma, member, quote]
    rw [e, parseMembers_more k m.1 _ (m.2.1 ++ 0x2C ::
        (joinComma ((m2 :: ms).map (fun x => member x.1 x.2.1)) ++ 0x7D :: rest))
        (joinComma ((m2 :: ms).map (fun x => member x.1 x.2.1)) ++ 0x7D :: rest) m.2.2
        (parseStringChars_quoteChars _ _)
        (by rw [skipSpace_of_startsSolid hs]; exact hp k _ (by omega))]
    have hsol : StartsSolid (joinComma ((m2 :: ms).map (fun x => member x.1 x.2.1))) := by
      have hq : StartsSolid (member m2.1 m2.2.1) := startsSolid_append (startsSolid_quote _) _
      cases ms with
      | nil => exact hq
      | cons z zs => exact startsSolid_append hq _
    rw [skipSpace_of_startsSolid hsol,
      ih m2 k (fun x hx => hall x (List.mem_cons_of_mem _ hx)) hk]
    rfl

theorem parsesTo_stringifyMembers (b : Nat) (m : JSString × JSString × Json)
    (ms : List (JSString × JSString × Json))
    (hall : ∀ x ∈ m :: ms, ParsesTo x.2.1 x.2.2 b ∧ StartsSolid x.2.1) :
    ParsesTo (stringifyMembers ((m :: ms).map (fun x => (x.1, x.2.1))))
      (objectOfMembers ((m :: ms).map (fun x => (x.1, x.2.2)))) (ms.length + b + 2) := by
  intro n rest hn
  obtain ⟨k, rfl⟩ : ∃ k, n = k + 1 := ⟨n - 1, by omega⟩
  have hmap : ((m :: ms).map (fun x => (x.1, x.2.1))).map (fun y => member y.1 y.2) =
      (m :: ms).map (fun x => member x.1 x.2.1) := by
    rw [List.map_map]
    rfl
  have e : stringifyMembers ((m :: ms).map (fun x => (x.1, x.2.1))) ++ rest =
      0x7B :: (joinComma ((m :: ms).map (fun x => member x.1 x.2.1)) ++ 0x7D :: rest) := by
    rw [stringifyMembers, hmap]
    simp
  obtain ⟨t, ht⟩ : ∃ t, joinComma ((m :: ms).map (fun x => member x.1 x.2.1)) ++ 0x7D :: rest =
      0x22 :: t := by
    cases ms with
    | nil => exact ⟨_, by simp [joinComma, member, quote]; rfl⟩
    | cons m2 ms2 => exact ⟨_, by simp [joinComma, member, quote]; rfl⟩
  rw [e, ht, parseValue_object k 0x22 _ (by decide) (by decide), ← ht,
    parseMembers_members b m ms rest k hall (by omega)]
  rfl

theorem startsSolid_stringifyMembers (ms : List (JSString × JSString)) :
    StartsSolid (stringifyMembers ms) :=
  ⟨0x7B, joinComma (ms.map (fun m => member m.1 m.2)) ++ [0x7D], by simp [stringifyMembers],
    by decide⟩

/-! ### Round trip of an analysis result through stringify and parse -/

theorem objectOfMembers_analysis (c o m p : Json) :
    objectOfMembers [(js "colors", c), (js "objects", o), (js "mood", m),
      (js "composition", p)] =
    Json.obj [(js "colors", c), (js "objects", o), (js "mood", m), (js "composition", p)] := by
  simp [objectOfMembers, defineProp, js]

theorem objectOfMembers_result (a d n : Json) :
    objectOfMembers [(js "altText", a), (js "description", d), (js "analysis", n)] =
    Json.obj [(js "altText", a), (js "description", d), (js "analysis", n)] := by
  simp [objectOfMembers, defineProp, js]

theorem parsesTo_analysis (a : Analysis) :
    ParsesTo a.stringify a.toJson (a.colors.length + a.objects.length + 7) := by
  have h := parsesTo_stringifyMembers (a.colors.length + a.objects.length + 2)
    (js "colors", stringifyStrings a.colors, Json.arr (a.colors.map Json.str))
    [(js "objects", stringifyStrings a.objects, Json.arr (a.objects.map Json.str)),
      (js "mood", quote a.mood, Json.str a.mood),
      (js "composition", quote a.composition, Json.str a.composition)]
    (by
      intro x hx
      simp only [List.mem_cons, List.mem_singleton, List.not_mem_nil, or_false] at hx
      rcases hx with rfl | rfl | rfl | rfl
      · exact ⟨parsesTo_mono (parsesTo_stringifyStrings _) (by omega),
          startsSolid_stringifyStrings _⟩
      · exact ⟨parsesTo_mono (parsesTo_stringifyStrings _) (by omega),
          startsSolid_stringifyStrings _⟩
      · exact ⟨parsesTo_mono (parsesTo_quote _) (by omega), startsSolid_quote _⟩
      · exact ⟨parsesTo_mono (parsesTo_quote _) (by omega), startsSolid_quote _⟩)
  simp only [List.map, objectOfMembers_analysis] at h
  exact parsesTo_mono h (by simp only [List.length_cons, List.length_nil]; omega)

theorem parsesTo_result (r : AnalysisResult) :
    ParsesTo (JSON.stringify r) r.toJson
      (r.analysis.colors.length + r.analysis.objects.length + 11) := by
  have h := parsesTo_stringifyMembers (r.analysis.colors.length + r.analysis.objects.length + 7)
    (js "altText", quote r.altText, Json.str r.altText)
    [(js "description", quote r.description, Json.str r.description),
      (js "analysis", r.analysis.stringify, r.analysis.toJson)]
    (by
      intro x hx
      simp only [List.mem_cons, List.mem_singleton, List.not_mem_nil, or_false] at hx
      rcases hx with rfl | rfl | rfl
      · exact ⟨parsesTo_mono (parsesTo_quote _) (by omega), startsSolid_quote _⟩
      · exact ⟨parsesTo_mono (parsesTo_quote _) (by omega), startsSolid_quote _⟩
      · exact ⟨parsesTo_analysis _, startsSolid_stringifyMembers _⟩)
  simp only [List.map, objectOfMembers_result] at h
  exact parsesTo_mono h (by simp only [List.length_cons, List.length_nil]; omega)

theorem length_le_joinComma_quote (xs : List JSString) :
    xs.length ≤ (joinComma (xs.map quote)).length := by
  induction xs with
  | nil => simp [joinComma]
  | cons x xs ih =>
    cases xs with
    | nil => simp [joinComma, quote]
    | cons y ys =>
      simp only [List.map, joinComma, List.length_append, List.length_cons] at ih ⊢
      omega

theorem length_le_stringifyStrings (xs : List JSString) :
    xs.length + 2 ≤ (stringifyStrings xs).length := by
  have := length_le_joinComma_quote xs
  simp only [stringifyStrings, List.length_cons, List.length_append, List.length_nil]
  omega

theorem bound_le_length_stringify (r : AnalysisResult) :
    r.analysis.colors.length + r.analysis.objects.length + 11 ≤ (JSON.stringify r).length + 1 := by
  have h1 := length_le_stringifyStrings r.analysis.colors
  have h2 := length_le_stringifyStrings r.analysis.objects
  simp only [JSON.stringify, Analysis.stringify, stringifyMembers, List.map, joinComma, member,
    List.length_cons, List.length_append, List.length_nil]
  omega

/-- Parsing the serialisation of an analysis result gives the result back. -/
theorem parse_stringify (r : AnalysisResult) : JSON.parse (JSON.stringify r) = some r.toJson := by
  have hs : skipSpace (JSON.stringify r) = JSON.stringify r := by
    have := skipSpace_of_startsSolid (startsSolid_stringifyMembers
      [(js "altText", quote r.altText), (js "description", quote r.description),
        (js "analysis", r.analysis.stringify)]) []
    simpa [JSON.stringify] using this
  have hp := parsesTo_result r ((JSON.stringify r).length + 1) [] (bound_le_length_stringify r)
  rw [List.append_nil] at hp
  rw [JSON.parse, hs, hp]
  rfl

/-- The serialisation of an analysis result is one brace-delimited text. -/
theorem stringify_braces (r : AnalysisResult) :
    ∃ mid, JSON.stringify r = lbrace :: mid ++ [rbrace] :=
  ⟨_, rfl⟩


/-! ### The nesting bound of the parser is never the cause of a failure -/

theorem skipSpace_length_le (s : JSString) : (skipSpace s).length ≤ s.length := by
  induction s with
  | nil => simp [skipSpace]
  | cons c t ih =>
    rw [skipSpace]
    split_ifs
    · simp only [List.length_cons]; omega
    · exact Nat.le_refl _

theorem parseStringChars_length_lt (n : Nat) :
    ∀ t x r, t.length ≤ n → parseStringChars t = some (x, r) → r.length < t.length := by
  induction n with
  | zero =>
    intro t x r hl h
    cases t with
    | nil => rw [parseStringChars.eq_def] at h; cases h
    | cons c t => simp at hl
  | succ n ih =>
    intro t x r hl h
    cases t with
    | nil => rw [parseStringChars.eq_def] at h; cases h
    | cons c t =>
      rw [parseStringChars.eq_def] at h
      simp only at h
      simp only [List.length_cons] at hl ⊢
      by_cases h1 : c = 0x22
      · rw [if_pos h1] at h
        cases h
        omega
      rw [if_neg h1] at h
      by_cases h2 : c = 0x5C
      · rw [if_pos h2] at h
        cases t with
        | nil => cases h
        | cons e t2 =>
          simp only [List.length_cons] at hl ⊢
          simp only at h
          by_cases h4 : e = 0x75
          · rw [if_pos h4] at h
            split at h
            · rename_i a b c2 d t3
              split at h
              · obtain ⟨q, hq, hh⟩ := Option.map_eq_some'.mp h
                obtain ⟨q1, q2⟩ := q
                have := ih t3 q1 q2 (by simp only [List.length_cons] at hl; omega) hq
                simp only [Prod.mk.injEq] at hh
                simp only [List.length_cons]
                rw [← hh.2]
                omega
              · cases h
            · cases h
          · rw [if_neg h4] at h
            split at h
            · obtain ⟨q, hq, hh⟩ := Option.map_eq_some'.mp h
              obtain ⟨q1, q2⟩ := q
              have := ih t2 q1 q2 (by omega) hq
              simp only [Prod.mk.injEq] at hh
              rw [← hh.2]
              omega
            · cases h
      rw [if_neg h2] at h
      by_cases h3 : c < 0x20
      · rw [if_pos h3] at h
        cases h
      rw [if_neg h3] at h
      obtain ⟨q, hq, hh⟩ := Option.map_eq_some'.mp h
      obtain ⟨q1, q2⟩ := q
      have := ih t q1 q2 (by omega) hq
      simp only [Prod.mk.injEq] at hh
      rw [← hh.2]
      omega

theorem stripWord_length_le (w : JSString) :
    ∀ t r, stripWord w t = some r → r.length ≤ t.length := by
  induction w with
  | nil =>
    intro t r h
    rw [stripWord] at h
    cases h
    exact Nat.le_refl _
  | cons a w ih =>
    intro t r h
    cases t with
    | nil => rw [stripWord] at h; cases h
    | cons c t =>
      rw [stripWord] at h
      split_ifs at h
      have := ih t r h
      simp only [List.length_cons]
      omega

theorem takeDigits_length_le (t : JSString) : (takeDigits t).2.length ≤ t.length := by
  induction t with
  | nil => simp [takeDigits]
  | cons c t ih =>
    rw [takeDigits]
    split_ifs
    · simp only [List.length_cons]; omega
    · exact Nat.le_refl _

theorem parseIntPart_length_lt {s r : JSString} {ds : List Nat}
    (h : parseIntPart s = some (ds, r)) : r.length < s.length := by
  cases s with
  | nil => simp [parseIntPart] at h
  | cons c t =>
    rw [parseIntPart] at h
    split_ifs at h with h1 h2
    · cases h; simp
    · simp only [Option.some.injEq] at h
      have h3 : (takeDigits (c :: t)).2 = r := by rw [h]
      rw [takeDigits, if_pos h2] at h3
      have := takeDigits_length_le t
      simp only at h3
      rw [← h3]
      simp only [List.length_cons]
      omega

theorem parseFraction_length_le {s r : JSString} {ds : List Nat}
    (h : parseFraction s = some (ds, r)) : r.length ≤ s.length := by
  cases s with
  | nil => simp [parseFraction] at h; rw [h.2]
  | cons c t =>
    rw [parseFraction] at h
    split_ifs at h with h1
    · have := takeDigits_length_le t
      split at h
      · cases h
      · rename_i ds2 r2 _ heq
        simp only [Option.some.injEq, Prod.mk.injEq] at h
        rw [heq] at this
        simp only [List.length_cons]
        rw [← h.2]
        simp only at this
        omega
    · cases h; exact Nat.le_refl _

theorem takeDigits_some_length {t r : JSString} {ds : List Nat}
    (h : takeDigits t = (ds, r)) : r.length ≤ t.length := by
  have := takeDigits_length_le t
  rw [h] at this
  exact this

theorem parseExponent_length_le {s r : JSString} {e : Int}
    (h : parseExponent s = some (e, r)) : r.length ≤ s.length := by
  cases s with
  | nil => simp [parseExponent] at h; rw [h.2]
  | cons c t =>
    rw [parseExponent.eq_def] at h
    simp only at h
    split_ifs at h with h1
    · split at h
      · cases h
      · rename_i sgn t2
        simp only [List.length_cons]
        split_ifs at h with h2 h3
        · split at h
          · cases h
          · rename_i ds2 r2 _ heq
            have := takeDigits_some_length heq
            simp only [Option.some.injEq, Prod.mk.injEq] at h
            rw [← h.2]
            omega
        · split at h
          · cases h
          · rename_i ds2 r2 _ heq
            have := takeDigits_some_length heq
            simp only [Option.some.injEq, Prod.mk.injEq] at h
            rw [← h.2]
            omega
        · split at h
          · cases h
          · rename_i ds2 r2 _ heq
            have := takeDigits_some_length heq
            simp only [Option.some.injEq, Prod.mk.injEq] at h
            rw [← h.2]
            simp only [List.length_cons] at this
            omega
    · cases h; exact Nat.le_refl _

theorem parseUnsigned_length_lt {neg : Bool} {s r : JSString} {v : Json}
    (h : parseUnsigned neg s = some (v, r)) : r.length < s.length := by
  unfold parseUnsigned at h
  split at h
  · cases h
  · rename_i ids s1 h1
    split at h
    · cases h
    · rename_i fds s2 h2
      split at h
      · cases h
      · rename_i e s3 h3
        simp only [Option.some.injEq, Prod.mk.injEq] at h
        have a1 := parseIntPart_length_lt h1
        have a2 := parseFraction_length_le h2
        have a3 := parseExponent_length_le h3
        rw [← h.2]
        omega

theorem parseNumber_length_lt {s r : JSString} {v : Json}
    (h : parseNumber s = some (v, r)) : r.length < s.length := by
  cases s with
  | nil => simp [parseNumber] at h
  | cons c t =>
    rw [parseNumber] at h
    split_ifs at h
    · have := parseUnsigned_length_lt h
      simp only [List.length_cons]
      omega
    · exact parseUnsigned_length_lt h

theorem parseValue_leaf (n : Nat) (c : Nat) (t : JSString) (h1 : c ≠ 0x7B) (h2 : c ≠ 0x5B) :
    parseValue (n + 1) (c :: t) = parseValue 1 (c :: t) := by
  rw [parseValue.eq_def, parseValue.eq_def 1]
  simp only [if_neg h1, if_neg h2]

theorem parseValue_leaf_length_lt (c : Nat) (t r : JSString) (v : Json) (h1 : c ≠ 0x7B)
    (h2 : c ≠ 0x5B) (h : parseValue 1 (c :: t) = some (v, r)) : r.length < (c :: t).length := by
  rw [parseValue.eq_def] at h
  simp only [if_neg h1, if_neg h2] at h
  simp only [List.length_cons]
  split_ifs at h with h3 h4 h5 h6
  · obtain ⟨q, hq, hh⟩ := Option.map_eq_some'.mp h
    obtain ⟨q1, q2⟩ := q
    have := parseStringChars_length_lt t.length t q1 q2 (Nat.le_refl _) hq
    simp only [Prod.mk.injEq] at hh
    rw [← hh.2]
    omega
  · obtain ⟨q, hq, hh⟩ := Option.map_eq_some'.mp h
    have := stripWord_length_le _ t q hq
    simp only [Prod.mk.injEq] at hh
    rw [← hh.2]
    omega
  · obtain ⟨q, hq, hh⟩ := Option.map_eq_some'.mp h
    have := stripWord_length_le _ t q hq
    simp only [Prod.mk.injEq] at hh
    rw [← hh.2]
    omega
  · obtain ⟨q, hq, hh⟩ := Option.map_eq_some'.mp h
    have := stripWord_length_le _ t q hq
    simp only [Prod.mk.injEq] at hh
    rw [← hh.2]
    omega
  · have := parseNumber_length_lt h
    simpa using this

theorem parseValue_open (n : Nat) (t : JSString) :
    parseValue (n + 1) (0x7B :: t) =
      match skipSpace t with
      | [] => none
      | d :: t2 =>
        if d = 0x7D then some (Json.obj [], t2)
        else (parseMembers n (d :: t2)).map (fun r => (objectOfMembers r.1, r.2)) := by
  rw [parseValue.eq_def]
  simp only [if_true]

theorem parseValue_bracket (n : Nat) (t : JSString) :
    parseValue (n + 1) (0x5B :: t) =
      match skipSpace t with
      | [] => none
      | d :: t2 =>
        if d = 0x5D then some (Json.arr [], t2)
        else (parseElements n (d :: t2)).map (fun r => (Json.arr r.1, r.2)) := by
  rw [parseValue.eq_def]
  simp only [Nat.reduceEqDiff, if_false, if_true]

/-- A successful parse consumes input, and succeeds with the same result under
every bound that is at least the number of code units consumed. -/
theorem parse_bound_invariant (m : Nat) :
    (∀ s v r, parseValue m s = some (v, r) →
      r.length < s.length ∧ ∀ n, s.length - r.length ≤ n → parseValue n s = some (v, r)) ∧
    (∀ s vs r, parseElements m s = some (vs, r) →
      r.length < s.length ∧ ∀ n, s.length - r.length ≤ n → parseElements n s = some (vs, r)) ∧
    (∀ s ms r, parseMembers m s = some (ms, r) →
      r.length < s.length ∧ ∀ n, s.length - r.length ≤ n → parseMembers n s = some (ms, r)) := by
  induction m with
  | zero =>
    refine ⟨?_, ?_, ?_⟩
    · intro s v r h; rw [parseValue.eq_def] at h; cases h
    · intro s v r h; rw [parseElements.eq_def] at h; cases h
    · intro s v r h; rw [parseMembers.eq_def] at h; cases h
  | succ m ih =>
    obtain ⟨ihV, ihE, ihM⟩ := ih
    refine ⟨?_, ?_, ?_⟩
    · intro s v r h
      cases s with
      | nil => rw [parseValue.eq_def] at h; cases h
      | cons c t =>
        by_cases h1 : c = 0x7B
        · subst h1
          rw [parseValue_open] at h
          have hsk := skipSpace_length_le t
          cases hs : skipSpace t with
          | nil => rw [hs] at h; cases h
          | cons d t2 =>
            rw [hs] at h hsk
            simp only [List.length_cons] at hsk ⊢
            simp only at h
            by_cases hd : d = 0x7D
            · rw [if_pos hd] at h
              cases h
              refine ⟨by omega, ?_⟩
              intro n hn
              obtain ⟨k, rfl⟩ : ∃ k, n = k + 1 := ⟨n - 1, by omega⟩
              rw [parseValue_open, hs]
              simp only [if_pos hd]
            · rw [if_neg hd] at h
              obtain ⟨q, hq, hh⟩ := Option.map_eq_some'.mp h
              obtain ⟨q1, q2⟩ := q
              simp only [Prod.mk.injEq] at hh
              obtain ⟨hl, hall⟩ := ihM _ _ _ hq
              simp only [List.length_cons] at hl hall
              rw [← hh.2]
              refine ⟨by omega, ?_⟩
              intro n hn
              obtain ⟨k, rfl⟩ : ∃ k, n = k + 1 := ⟨n - 1, by omega⟩
              rw [parseValue_open, hs]
              simp only [if_neg hd]
              rw [hall k (by omega)]
              simp only [Option.map_some', hh.1]
        by_cases h2 : c = 0x5B
        · subst h2
          rw [parseValue_bracket] at h
          have hsk := skipSpace_length_le t
          cases hs : skipSpace t with
          | nil => rw [hs] at h; cases h
          | cons d t2 =>
            rw [hs] at h hsk
            simp only [List.length_cons] at hsk ⊢
            simp only at h
            by_cases hd : d = 0x5D
            · rw [if_pos hd] at h
              cases h
              refine ⟨by omega, ?_⟩
              intro n hn
              obtain ⟨k, rfl⟩ : ∃ k, n = k + 1 := ⟨n - 1, by omega⟩
              rw [parseValue_bracket, hs]
              simp only [if_pos hd]
            · rw [if_neg hd] at h
              obtain ⟨q, hq, hh⟩ := Option.map_eq_some'.mp h
              obtain ⟨q1, q2⟩ := q
              simp only [Prod.mk.injEq] at hh
              obtain ⟨hl, hall⟩ := ihE _ _ _ hq
              simp only [List.length_cons] at hl hall
              rw [← hh.2]
              refine ⟨by omega, ?_⟩
              intro n hn
              obtain ⟨k, rfl⟩ : ∃ k, n = k + 1 := ⟨n - 1, by omega⟩
              rw [parseValue_bracket, hs]
              simp only [if_neg hd]
              rw [hall k (by omega)]
              simp only [Option.map_some', hh.1]
        · rw [parseValue_leaf m c t h1 h2] at h
          have hl := parseValue_leaf_length_lt c t r v h1 h2 h
          refine ⟨hl, ?_⟩
          intro n hn
          obtain ⟨k, rfl⟩ : ∃ k, n = k + 1 := ⟨n - 1, by omega⟩
          rw [parseValue_leaf k c t h1 h2, h]
    · intro s vs r h
      rw [parseElements.eq_def] at h
      simp only at h
      split at h
      · cases h
      · rename_i v r1 hv
        obtain ⟨hl1, hall1⟩ := ihV _ _ _ hv
        have hsk := skipSpace_length_le r1
        split at h
        · cases h
        · rename_i d r2 hs
          rw [hs] at hsk
          simp only [List.length_cons] at hsk
          by_cases hd : d = 0x5D
          · rw [if_pos hd] at h
            cases h
            refine ⟨by omega, ?_⟩
            intro n hn
            obtain ⟨k, rfl⟩ : ∃ k, n = k + 1 := ⟨n - 1, by omega⟩
            rw [parseElements.eq_def]
            simp only [hall1 k (by omega), hs, if_pos hd]
          · rw [if_neg hd] at h
            by_cases hc : d = 0x2C
            · rw [if_pos hc] at h
              obtain ⟨q, hq, hh⟩ := Option.map_eq_some'.mp h
              obtain ⟨q1, q2⟩ := q
              simp only [Prod.mk.injEq] at hh
              obtain ⟨hl2, hall2⟩ := ihE _ _ _ hq
              have hsk2 := skipSpace_length_le r2
              rw [← hh.2]
              refine ⟨by omega, ?_⟩
              intro n hn
              obtain ⟨k, rfl⟩ : ∃ k, n = k + 1 := ⟨n - 1, by omega⟩
              rw [parseElements.eq_def]
              simp only [hall1 k (by omega), hs, if_neg hd, if_pos hc, hall2 k (by omega),
                Option.map_some', hh.1]
            · rw [if_neg hc] at h
              cases h
    · intro s ms r h
      cases s with
      | nil => rw [parseMembers.eq_def] at h; cases h
      | cons c t =>
        rw [parseMembers.eq_def] at h
        simp only at h
        by_cases hq : c = 0x22
        · rw [if_pos hq] at h
          split at h
          · cases h
          · rename_i key r0 hk
            have hl0 := parseStringChars_length_lt t.length t key r0 (Nat.le_refl _) hk
            have hsk0 := skipSpace_length_le r0
            split at h
            · cases h
            · rename_i colon r1 hs0
              rw [hs0] at hsk0
              simp only [List.length_cons] at hsk0 ⊢
              by_cases hcol : colon = 0x3A
              · rw [if_pos hcol] at h
                have hsk1 := skipSpace_length_le r1
                split at h
                · cases h
                · rename_i v r2 hv
                  obtain ⟨hl1, hall1⟩ := ihV _ _ _ hv
                  have hsk2 := skipSpace_length_le r2
                  split at h
                  · cases h
                  · rename_i d r3 hs2
                    rw [hs2] at hsk2
                    simp only [List.length_cons] at hsk2
                    by_cases hd : d = 0x7D
                    · rw [if_pos hd] at h
                      cases h
                      refine ⟨by omega, ?_⟩
                      intro n hn
                      obtain ⟨k, rfl⟩ : ∃ k, n = k + 1 := ⟨n - 1, by omega⟩
                      rw [parseMembers.eq_def]
                      simp only [if_pos hq, hk, hs0, if_pos hcol, hall1 k (by omega), hs2,
                        if_pos hd]
                    · rw [if_neg hd] at h
                      by_cases hc : d = 0x2C
                      · rw [if_pos hc] at h
                        obtain ⟨q, hqq, hh⟩ := Option.map_eq_some'.mp h
                        obtain ⟨q1, q2⟩ := q
                        simp only [Prod.mk.injEq] at hh
                        obtain ⟨hl2, hall2⟩ := ihM _ _ _ hqq
                        have hsk3 := skipSpace_length_le r3
                        rw [← hh.2]
                        refine ⟨by omega, ?_⟩
                        intro n hn
                        obtain ⟨k, rfl⟩ : ∃ k, n = k + 1 := ⟨n - 1, by omega⟩
                        rw [parseMembers.eq_def]
                        simp only [if_pos hq, hk, hs0, if_pos hcol, hall1 k (by omega), hs2,
                          if_neg hd, if_pos hc, hall2 k (by omega), Option.map_some', hh.1]
                      · rw [if_neg hc] at h
                        cases h
              · rw [if_neg hcol] at h
                cases h
        · rw [if_neg hq] at h
          cases h

/-- The bound that `JSON.parse` passes never cuts a parse short: whatever any
bound can parse, the bound of `JSON.parse` parses to the same result. -/
theorem parseValue_bound_adequate (text : JSString) (m : Nat) (v : Json) (r : JSString)
    (h : parseValue m (skipSpace text) = some (v, r)) :
    parseValue (text.length + 1) (skipSpace text) = some (v, r) := by
  obtain ⟨_, hall⟩ := (parse_bound_invariant m).1 _ _ _ h
  have := skipSpace_length_le text
  exact hall _ (by omega)

/-- Every complete parse under some bound is the result of `JSON.parse`. -/
theorem parse_of_parseValue (text : JSString) (m : Nat) (v : Json) (r : JSString)
    (h : parseValue m (skipSpace text) = some (v, r)) (hr : skipSpace r = []) :
    JSON.parse text = some v := by
  rw [JSON.parse, parseValue_bound_adequate text m v r h]
  simp only [hr, if_true]

/-! ### Lemmas on the value sent by res.json -/

theorem wire_str (s : JSString) : (Json.str s).wire = Json.str s := by
  rw [Json.wire]

theorem wire_bool (b : Bool) : (Json.bool b).wire = Json.bool b := by
  rw [Json.wire]

theorem wire_arr (xs : List Json) : (Json.arr xs).wire = Json.arr (Json.wireList xs) := by
  rw [Json.wire]

theorem wire_obj (props : List (JSString × Json)) :
    (Json.obj props).wire = Json.obj (Json.wireProps props) := by
  rw [Json.wire]

theorem wire_num (n : JNumber) :
    (Json.num n).wire = if n.overflows then Json.null else Json.num n := by
  rw [Json.wire]

theorem wireList_cons (x : Json) (xs : List Json) :
    Json.wireList (x :: xs) = x.wire :: Json.wireList xs := by
  rw [Json.wireList]

theorem wireProps_cons (k : JSString) (v : Json) (props : List (JSString × Json)) :
    Json.wireProps ((k, v) :: props) = (k, v.wire) :: Json.wireProps props := by
  rw [Json.wireProps]

theorem wireProps_nil : Json.wireProps [] = [] := by
  rw [Json.wireProps]

theorem wireList_nil : Json.wireList [] = [] := by
  rw [Json.wireList]

theorem wireList_map_str (xs : List JSString) :
    Json.wireList (xs.map Json.str) = xs.map Json.str := by
  induction xs with
  | nil => exact wireList_nil
  | cons x xs ih => rw [List.map, wireList_cons, wire_str, ih]

theorem successBody_wire (d : Json) : (successBody d).wire = successBody d.wire := by
  simp only [successBody, wire_obj, wireProps_cons, wireProps_nil, wire_bool]

/-- Reading a property of the value sent gives the property as sent. -/
theorem getProp_wire (v : Json) (k : JSString) :
    v.wire.getProp k = (v.getProp k).map Json.wire := by
  cases v with
  | null => rw [Json.wire]; rfl
  | bool b => rw [wire_bool]; rfl
  | str s => rw [wire_str]; rfl
  | arr xs => rw [wire_arr]; rfl
  | num n =>
    rw [wire_num]
    split_ifs <;> rfl
  | obj props =>
    rw [wire_obj]
    simp only [Json.getProp]
    induction props with
    | nil => rw [wireProps_nil]; rfl
    | cons kv rest ih =>
      obtain ⟨k0, v0⟩ := kv
      rw [wireProps_cons]
      by_cases hk : k0 = k
      · simp [List.find?, hk]
      · simp only [List.find?, hk, decide_False]
        exact ih

/-- A truthy value is sent as `null` (an infinite number) or as a value that
is neither `false`, nor a zero number, nor the empty string. -/
theorem wire_of_truthy (a : Json) (h : a.truthy = true) :
    a.wire ≠ Json.bool false ∧ a.wire ≠ Json.str [] ∧
      (∀ n, a.wire = Json.num n → n.roundsToZero = false) := by
  cases a with
  | null => cases h
  | bool b =>
    rw [wire_bool]
    simp only [Json.truthy] at h
    subst h
    exact ⟨by simp, by simp, by simp⟩
  | str s =>
    rw [wire_str]
    refine ⟨by simp, ?_, by simp⟩
    intro e
    rw [Json.str.injEq] at e
    rw [e] at h
    cases h
  | arr xs => rw [wire_arr]; exact ⟨by simp, by simp, by simp⟩
  | obj props => rw [wire_obj]; exact ⟨by simp, by simp, by simp⟩
  | num n =>
    rw [wire_num]
    simp only [Json.truthy, Bool.not_eq_true'] at h
    split_ifs
    · exact ⟨by simp, by simp, by simp⟩
    · refine ⟨by simp, by simp, ?_⟩
      intro m e
      rw [Json.num.injEq] at e
      rw [← e]
      exact h

theorem toJson_wire (r : AnalysisResult) : r.toJson.wire = r.toJson := by
  simp only [AnalysisResult.toJson, Analysis.toJson, wire_obj, wireProps_cons, wireProps_nil,
    wire_str, wire_arr, wireList_map_str]

/-! ### Lemmas on the server.js handler -/

theorem substring_zero (s : JSString) (n : Nat) : substring s 0 n = s.take n := by
  simp [substring]

/-- A match exists exactly when an opening brace comes before a closing brace. -/
theorem jsonMatch_isSome_iff (s : JSString) :
    (jsonMatch s).isSome ↔ ∃ i j : Nat, i < j ∧ s[i]? = some lbrace ∧ s[j]? = some rbrace := by
  constructor
  · intro h
    obtain ⟨m, hm⟩ := Option.isSome_iff_exists.mp h
    obtain ⟨pre, mid, post, hs, hmm, hpre, hpost⟩ := jsonMatch_some hm
    have h := braces_index_form pre mid post hpre hpost
    simp only at h
    rw [← hs] at h
    exact ⟨_, _, h.1, h.2.1, h.2.2.2.1⟩
  · rintro ⟨i, j, hij, hi, hj⟩
    cases hm : jsonMatch s with
    | some m => rfl
    | none =>
      exfalso
      have hi2 : i < s.length := by
        by_contra hlt
        rw [List.getElem?_eq_none (by omega)] at hi
        cases hi
      have hsplit : s = s.take i ++ lbrace :: s.drop (i + 1) := by
        have hget : s[i] = lbrace := by
          rw [List.getElem?_eq_getElem hi2] at hi
          exact Option.some.inj hi
        rw [← hget, List.getElem_cons_drop, List.take_append_drop]
      refine jsonMatch_eq_none.mp hm _ _ hsplit ?_
      have hd : (s.drop (i + 1))[j - (i + 1)]? = some rbrace := by
        rw [List.getElem?_drop]
        have : i + 1 + (j - (i + 1)) = j := by omega
        rw [this]
        exact hj
      exact List.getElem?_mem hd

theorem jsonMatch_eq_none_iff (s : JSString) :
    jsonMatch s = none ↔ ¬ ∃ i j : Nat, i < j ∧ s[i]? = some lbrace ∧ s[j]? = some rbrace := by
  rw [← jsonMatch_isSome_iff]
  cases jsonMatch s <;> simp

namespace Server

theorem parsedResponse_of_parse {c m : JSString} {v : Json} (hm : jsonMatch c = some m)
    (hp : JSON.parse m = some v) : parsedResponse c = v := by
  simp [parsedResponse, tryParse, hm, hp]

theorem parsedResponse_of_unparsable {c : JSString}
    (h : jsonMatch c = none ∨ ∃ m, jsonMatch c = some m ∧ JSON.parse m = none) :
    parsedResponse c = fallback c := by
  rcases h with h | ⟨m, hm, hp⟩
  · simp [parsedResponse, tryParse, h]
  · simp [parsedResponse, tryParse, hm, hp]

theorem fallback_eq (c : JSString) :
    fallback c = Json.obj [
      (js "altText", Json.str (c.take 125 ++ (if 125 < c.length then js "..." else []))),
      (js "description", Json.str c),
      (js "analysis", Json.obj [
        (js "colors", Json.arr [Json.str (js "Various")]),
        (js "objects", Json.arr [Json.str (js "Multiple objects")]),
        (js "mood", Json.str (js "Neutral")),
        (js "composition", Json.str (js "Standard"))])] := by
  rw [fallback, substring_zero]
  rfl

theorem fallback_wire (c : JSString) : (fallback c).wire = fallback c := by
  rw [fallback_eq]
  simp only [wire_obj, wireProps_cons, wireProps_nil, wire_str, wire_arr, wireList_cons,
    wireList_nil]

theorem getProp_altText (a d : Json) (rest : List (JSString × Json)) :
    (Json.obj ((js "altText", a) :: (js "description", d) :: rest)).getProp (js "altText") =
      some a := by
  simp [Json.getProp]

theorem getProp_description (a d : Json) (rest : List (JSString × Json)) :
    (Json.obj ((js "altText", a) :: (js "description", d) :: rest)).getProp (js "description") =
      some d := by
  simp [Json.getProp, js]

theorem respond_ok {c : JSString}
    (ha : truthyProp ((parsedResponse c).getProp (js "altText")) = true)
    (hd : truthyProp ((parsedResponse c).getProp (js "description")) = true) :
    respond c = Except.ok ⟨200, some (successBody (parsedResponse c).wire)⟩ := by
  simp [respond, ha, hd, resJson, successBody_wire]

theorem respond_ok_inv {c : JSString} {r : Response} (h : respond c = Except.ok r) :
    r = ⟨200, some (successBody (parsedResponse c).wire)⟩ ∧
      truthyProp ((parsedResponse c).getProp (js "altText")) = true ∧
      truthyProp ((parsedResponse c).getProp (js "description")) = true := by
  unfold respond at h
  simp only at h
  split_ifs at h with hc
  · simp only [Bool.or_eq_true, Bool.not_eq_true', not_or, Bool.not_eq_false] at hc
    cases h
    exact ⟨by rw [resJson, successBody_wire], hc.1, hc.2⟩

theorem handler_reply (key : JSString) (req : Request) (file : UploadedFile)
    (post : OpenAIRequest → Upstream) (c : JSString) (hfile : req.file = some file)
    (hreply : post (openAIRequest key file) = Upstream.reply c) :
    (handler key req post).response =
      match respond c with
      | Except.ok r => r
      | Except.error e => errorResponse e := by
  simp only [handler, hfile, hreply, afterCall]
  cases respond c <;> rfl

theorem handler_rejected (key : JSString) (req : Request) (file : UploadedFile)
    (post : OpenAIRequest → Upstream) (e : JsError) (hfile : req.file = some file)
    (hreply : post (openAIRequest key file) = Upstream.rejected e) :
    (handler key req post).response = errorResponse e := by
  simp only [handler, hfile, hreply, afterCall]

theorem errorResponse_ne_success (e : JsError) (d : Json) :
    errorResponse e ≠ ⟨200, some (successBody d)⟩ := by
  intro h
  unfold errorResponse at h
  have hk : js "error" ≠ js "success" := by decide
  split at h
  · simp only [Response.mk.injEq, Option.some.injEq, successBody, Json.obj.injEq, List.cons.injEq,
      Prod.mk.injEq] at h
    exact hk h.2.1.1
  · split_ifs at h <;>
      simp only [Response.mk.injEq, Option.some.injEq, successBody, Json.obj.injEq, List.cons.injEq,
        Prod.mk.injEq] at h
    all_goals exact hk h.2.1.1

/-- A successful answer of the handler carries the normalised reply as it is
sent, and that reply passed the structure check. -/
theorem handler_success_inv (key : JSString) (req : Request) (post : OpenAIRequest → Upstream)
    (d : Json) (h : (handler key req post).response = ⟨200, some (successBody d)⟩) :
    ∃ c, d = (parsedResponse c).wire ∧
      truthyProp ((parsedResponse c).getProp (js "altText")) = true ∧
      truthyProp ((parsedResponse c).getProp (js "description")) = true := by
  have key2 : ∀ c, (match respond c with
      | Except.ok response => response
      | Except.error error => errorResponse error) = ⟨200, some (successBody d)⟩ →
      ∃ c, d = (parsedResponse c).wire ∧
        truthyProp ((parsedResponse c).getProp (js "altText")) = true ∧
        truthyProp ((parsedResponse c).getProp (js "description")) = true := by
    intro c hc
    cases hr : respond c with
    | error e =>
      rw [hr] at hc
      exact absurd hc (errorResponse_ne_success e d)
    | ok r =>
      rw [hr] at hc
      simp only at hc
      obtain ⟨h1, h2, h3⟩ := respond_ok_inv hr
      rw [h1] at hc
      simp only [Response.mk.injEq, Option.some.injEq, successBody, Json.obj.injEq,
        List.cons.injEq, Prod.mk.injEq, and_true, true_and] at hc
      exact ⟨c, hc.symm, h2, h3⟩
  unfold handler at h
  cases hf : req.file with
  | none =>
    rw [hf] at h
    simp only [Response.mk.injEq] at h
    omega
  | some file =>
    rw [hf] at h
    simp only at h
    cases hp : post (openAIRequest key file) with
    | reply c =>
      rw [hp] at h
      simp only [afterCall] at h
      apply key2 c
      cases hr : respond c <;> rw [hr] at h <;> exact h
    | nonString v =>
      rw [hp] at h
      cases v with
      | none =>
        simp only [afterCall] at h
        exact absurd h (errorResponse_ne_success _ d)
      | some w =>
        cases w with
        | str c =>
          simp only [afterCall] at h
          apply key2 c
          cases hr : respond c <;> rw [hr] at h <;> exact h
        | null => simp only [afterCall] at h; exact absurd h (errorResponse_ne_success _ d)
        | bool b => simp only [afterCall] at h; exact absurd h (errorResponse_ne_success _ d)
        | num n => simp only [afterCall] at h; exact absurd h (errorResponse_ne_success _ d)
        | arr xs => simp only [afterCall] at h; exact absurd h (errorResponse_ne_success _ d)
        | obj ps => simp only [afterCall] at h; exact absurd h (errorResponse_ne_success _ d)
    | malformed =>
      rw [hp] at h
      simp only [afterCall] at h
      exact absurd h (errorResponse_ne_success _ d)
    | rejected e =>
      rw [hp] at h
      simp only [afterCall] at h
      exact absurd h (errorResponse_ne_success e d)

end Server

/-! ### Lemmas on the error answers and the header maps -/

namespace Server

theorem errorResponse_body_wire (error : JsError) :
    (errorResponse error).body.map Json.wire = (errorResponse error).body := by
  unfold errorResponse
  split
  · simp only [Option.map_some', wire_obj, wireProps_cons, wireProps_nil, wire_str]
  · split_ifs <;>
      simp only [Option.map_some', wire_obj, wireProps_cons, wireProps_nil, wire_str]

theorem errorResponse_of_response (error : JsError) (r : UpstreamResponse)
    (h : error.response = some r) :
    errorResponse error =
      ⟨r.status, some (Json.obj [(js "error", Json.str (js "AI service error")),
        (js "details", Json.str (errorMessage r.message))])⟩ := by
  simp only [errorResponse, h, errorMessage]

end Server

theorem headerValue_map_authorization (headers : Headers) (name : JSString) :
    headerValue (headers.map
      (fun h => if h.1 = js "authorization" then (h.1, js "Bearer [HIDDEN]") else h)) name =
      if name = js "authorization" then
        (headerValue headers name).map (fun _ => js "Bearer [HIDDEN]")
      else headerValue headers name := by
  induction headers with
  | nil => simp [headerValue]
  | cons kv rest ih =>
    obtain ⟨k, v⟩ := kv
    unfold headerValue at ih ⊢
    by_cases hk : k = js "authorization"
    · by_cases hn : name = js "authorization"
      · simp [List.find?, hk, hn]
      · have hne : ¬ js "authorization" = name := fun e => hn e.symm
        simp only [List.map, hk, if_true, List.find?, hne, decide_False, hn, if_false] at ih ⊢
        exact ih
    · by_cases hkn : k = name
      · have hn : ¬ name = js "authorization" := fun e => hk (hkn.trans e)
        simp [List.find?, hk, hkn, hn]
      · simp only [List.map, hk, if_false, List.find?, hkn, decide_False] at ih ⊢
        exact ih

namespace Server

theorem sanitizeHeaders_sanitizedHeaders (headers : Headers) :
    (sanitizeHeaders headers).sanitizedHeaders = sanitizedHeaders headers := by
  unfold sanitizeHeaders sanitizedHeaders headerValue
  cases hfind : List.find? (fun kv => decide (kv.1 = js "authorization")) headers with
  | none => simp only [hfind, Option.map_none']
  | some kv =>
    simp only [hfind, Option.map_some']
    split_ifs <;> rfl

theorem sanitizeHeaders_requestHeaders (headers : Headers) :
    (sanitizeHeaders headers).requestHeaders = headers := by
  unfold sanitizeHeaders
  cases hv : headerValue headers (js "authorization") with
  | none => simp only [hv]
  | some v =>
    simp only [hv]
    split_ifs <;> rfl

theorem handler_loggedHeaders (key : JSString) (req : Request)
    (post : OpenAIRequest → Upstream) :
    (handler key req post).loggedHeaders = some (sanitizedHeaders req.headers) := by
  unfold handler
  simp only
  cases req.file with
  | none => rfl
  | some file =>
    simp only
    cases afterCall (post (openAIRequest key file)) <;> rfl

end Server

namespace Api

/-- A `null` content is answered 200 by api/analyze-image.js, with the
fallback around it. -/
theorem afterCall_null_content :
    afterCall (Upstream.nonString (some Json.null)) =
      Except.ok ⟨200, some (successBody (fallbackOf (some Json.null)))⟩ := by
  rfl

end Api

/-! # Claims -/

/-! ## Claim C1 -/

/-- C1: for every reply string `s`, the JSON candidate selected by the pattern
exists exactly when `s` has an opening brace at some index `i` and a closing
brace at some index `j > i`; and when it exists it is the substring of `s`
from the first opening brace in `s` through the last closing brace in `s`,
inclusive. -/
theorem jsonMatch_first_through_last (s : JSString) :
    ((jsonMatch s).isSome ↔ ∃ i j : Nat, i < j ∧ s[i]? = some lbrace ∧ s[j]? = some rbrace) ∧
    ∀ m, jsonMatch s = some m →
      ∃ i j : Nat, i < j ∧
        s[i]? = some lbrace ∧ (∀ k, k < i → s[k]? ≠ some lbrace) ∧
        s[j]? = some rbrace ∧ (∀ k, j < k → s[k]? ≠ some rbrace) ∧
        m = substring s i (j + 1) := by
  have key : ∀ m, jsonMatch s = some m →
      ∃ i j : Nat, i < j ∧
        s[i]? = some lbrace ∧ (∀ k, k < i → s[k]? ≠ some lbrace) ∧
        s[j]? = some rbrace ∧ (∀ k, j < k → s[k]? ≠ some rbrace) ∧
        m = substring s i (j + 1) := by
    intro m hm
    obtain ⟨pre, mid, post, hs, hmm, hpre, hpost⟩ := jsonMatch_some hm
    have h := braces_index_form pre mid post hpre hpost
    simp only at h
    rw [← hs, ← hmm] at h
    exact ⟨_, _, h⟩
  exact ⟨jsonMatch_isSome_iff s, key⟩

/-- C1 at a reply that wraps an object in prose with stray braces on the
outside: the candidate runs from index 2 through index 7. -/
theorem jsonMatch_first_through_last_witness :
    jsonMatch (js "a\x7d\x7bb\x7d\x7bc\x7d\x7bd") = some (js "\x7bb\x7d\x7bc\x7d") ∧
    ∃ i j : Nat, i < j ∧
      (js "a\x7d\x7bb\x7d\x7bc\x7d\x7bd")[i]? = some lbrace ∧
      (∀ k, k < i → (js "a\x7d\x7bb\x7d\x7bc\x7d\x7bd")[k]? ≠ some lbrace) ∧
      (js "a\x7d\x7bb\x7d\x7bc\x7d\x7bd")[j]? = some rbrace ∧
      (∀ k, j < k → (js "a\x7d\x7bb\x7d\x7bc\x7d\x7bd")[k]? ≠ some rbrace) ∧
      js "\x7bb\x7d\x7bc\x7d" = substring (js "a\x7d\x7bb\x7d\x7bc\x7d\x7bd") i (j + 1) :=
  ⟨by decide,
   (jsonMatch_first_through_last (js "a\x7d\x7bb\x7d\x7bc\x7d\x7bd")).2 _ (by decide)⟩

/-! ## Claim C2 -/

/-- C2: round trip. For every AnalysisResult `r` with non-empty altText and
description, when the upstream message content is exactly the JSON
serialization of `r`, the extraction captures the whole serialization, the
parse returns `r`, the structure check passes, and the server.js handler
answers status 200 with `success: true` and `data` equal to `r`. -/
theorem conforming_payload_round_trip (key : JSString) (req : Request) (file : UploadedFile)
    (post : OpenAIRequest → Upstream) (r : AnalysisResult)
    (hfile : req.file = some file)
    (halt : r.altText ≠ []) (hdesc : r.description ≠ [])
    (hreply : post (Server.openAIRequest key file) = Upstream.reply (JSON.stringify r)) :
    jsonMatch (JSON.stringify r) = some (JSON.stringify r) ∧
    JSON.parse (JSON.stringify r) = some r.toJson ∧
    Server.respond (JSON.stringify r) = Except.ok ⟨200, some (successBody r.toJson)⟩ ∧
    (Server.handler key req post).response = ⟨200, some (successBody r.toJson)⟩ := by
  have hm : jsonMatch (JSON.stringify r) = some (JSON.stringify r) := by
    obtain ⟨mid, e⟩ := stringify_braces r
    have := jsonMatch_extract [] mid [] (by simp) (by simp)
    rw [e]
    simpa using this
  have hp := parse_stringify r
  have hv : Server.parsedResponse (JSON.stringify r) = r.toJson :=
    Server.parsedResponse_of_parse hm hp
  have ha : truthyProp ((Server.parsedResponse (JSON.stringify r)).getProp (js "altText")) =
      true := by
    rw [hv, AnalysisResult.toJson, Server.getProp_altText]
    cases h : r.altText with
    | nil => exact absurd h halt
    | cons c t => rfl
  have hd : truthyProp ((Server.parsedResponse (JSON.stringify r)).getProp (js "description")) =
      true := by
    rw [hv, AnalysisResult.toJson, Server.getProp_description]
    cases h : r.description with
    | nil => exact absurd h hdesc
    | cons c t => rfl
  have hr := Server.respond_ok ha hd
  rw [hv, toJson_wire] at hr
  refine ⟨hm, hp, hr, ?_⟩
  rw [Server.handler_reply key req file post _ hfile hreply, hr]

/-- C2 on the sample result: the handler answers with the result itself. -/
theorem conforming_payload_round_trip_witness :
    (Server.handler sampleKey sampleRequest (replyWith (JSON.stringify sampleResult))).response =
      ⟨200, some (successBody sampleResult.toJson)⟩ :=
  (conforming_payload_round_trip sampleKey sampleRequest sampleFile
    (replyWith (JSON.stringify sampleResult)) sampleResult rfl (by decide) (by decide) rfl).2.2.2

/-! ## Claim C3 -/

/-- C3 fails as stated: prose that itself contains a brace pair before a
well-formed object makes the match start in the prose, the parse fails, and
the normalizer returns the fallback, not the object. -/
theorem normalizer_misses_object_after_braces :
    JSON.parse (lbrace :: smallObjectBody ++ [rbrace]) = some smallObject ∧
    Server.parsedResponse
        (js "Note \x7bdraft\x7d: " ++ (lbrace :: smallObjectBody ++ [rbrace]) ++ []) =
      Server.fallback (js "Note \x7bdraft\x7d: " ++ (lbrace :: smallObjectBody ++ [rbrace])) ∧
    Server.parsedResponse
        (js "Note \x7bdraft\x7d: " ++ (lbrace :: smallObjectBody ++ [rbrace]) ++ []) ≠
      smallObject := by
  decide

/-- C3, amended: for every reply `pre ++ j ++ suf` where `j` is a well-formed
JSON object text with non-empty altText and description, `pre` contains no
opening brace and `suf` contains no closing brace, the normalizer in server.js
returns exactly the object that `j` parses to, and the handler answers with
it as `res.json` sends it. -/
theorem normalizer_extracts_embedded_object (key : JSString) (req : Request)
    (file : UploadedFile) (post : OpenAIRequest → Upstream)
    (pre mid suf a d : JSString) (v : Json)
    (hpre : lbrace ∉ pre) (hsuf : rbrace ∉ suf)
    (hj : JSON.parse (lbrace :: mid ++ [rbrace]) = some v)
    (ha : v.getProp (js "altText") = some (Json.str a)) (ha2 : a ≠ [])
    (hd : v.getProp (js "description") = some (Json.str d)) (hd2 : d ≠ [])
    (hfile : req.file = some file)
    (hreply : post (Server.openAIRequest key file) =
      Upstream.reply (pre ++ (lbrace :: mid ++ [rbrace]) ++ suf)) :
    Server.parsedResponse (pre ++ (lbrace :: mid ++ [rbrace]) ++ suf) = v ∧
    (Server.handler key req post).response = ⟨200, some (successBody v.wire)⟩ := by
  have hv : Server.parsedResponse (pre ++ (lbrace :: mid ++ [rbrace]) ++ suf) = v :=
    Server.parsedResponse_of_parse (jsonMatch_extract pre mid suf hpre hsuf) hj
  refine ⟨hv, ?_⟩
  have hta : truthyProp ((Server.parsedResponse
      (pre ++ (lbrace :: mid ++ [rbrace]) ++ suf)).getProp (js "altText")) = true := by
    rw [hv, ha]
    cases a with
    | nil => exact absurd rfl ha2
    | cons c t => rfl
  have htd : truthyProp ((Server.parsedResponse
      (pre ++ (lbrace :: mid ++ [rbrace]) ++ suf)).getProp (js "description")) = true := by
    rw [hv, hd]
    cases d with
    | nil => exact absurd rfl hd2
    | cons c t => rfl
  rw [Server.handler_reply key req file post _ hfile hreply, Server.respond_ok hta htd, hv]

/-- C3, amended, on an object inside a markdown fence. -/
theorem normalizer_extracts_embedded_object_witness :
    Server.parsedResponse (js "Here it is:\n\x60\x60\x60json\n" ++
      (lbrace :: smallObjectBody ++ [rbrace]) ++ js "\n\x60\x60\x60") = smallObject ∧
    (Server.handler sampleKey sampleRequest (replyWith (js "Here it is:\n\x60\x60\x60json\n" ++
      (lbrace :: smallObjectBody ++ [rbrace]) ++ js "\n\x60\x60\x60"))).response =
      ⟨200, some (successBody smallObject.wire)⟩ ∧
    smallObject.wire = smallObject :=
  ⟨(normalizer_extracts_embedded_object sampleKey sampleRequest sampleFile
    (replyWith (js "Here it is:\n\x60\x60\x60json\n" ++
      (lbrace :: smallObjectBody ++ [rbrace]) ++ js "\n\x60\x60\x60"))
    (js "Here it is:\n\x60\x60\x60json\n") smallObjectBody (js "\n\x60\x60\x60")
    (js "a") (js "b") smallObject
    (by decide) (by decide) (by decide) (by decide) (by decide) (by decide) (by decide)
    rfl rfl).1,
   (normalizer_extracts_embedded_object sampleKey sampleRequest sampleFile
    (replyWith (js "Here it is:\n\x60\x60\x60json\n" ++
      (lbrace :: smallObjectBody ++ [rbrace]) ++ js "\n\x60\x60\x60"))
    (js "Here it is:\n\x60\x60\x60json\n") smallObjectBody (js "\n\x60\x60\x60")
    (js "a") (js "b") smallObject
    (by decide) (by decide) (by decide) (by decide) (by decide) (by decide) (by decide)
    rfl rfl).2,
   by decide⟩

/-! ## Claim C4 -/

/-- C4: in server.js, for every reply string `content` that has no brace-delimited
substring or whose brace-delimited substring fails to parse, the synthesized
result has description `content`, altText its first 125 code units followed
by the three dots exactly when it is longer than 125, and the fixed
placeholder analysis; in particular for a reply of 200 code units altText is
its first 125 code units plus the three dots and description is all of it. -/
theorem fallback_shape (content : JSString)
    (h : jsonMatch content = none ∨
      ∃ m, jsonMatch content = some m ∧ JSON.parse m = none) :
    Server.parsedResponse content = Json.obj [
      (js "altText", Json.str
        (content.take 125 ++ (if 125 < content.length then js "..." else []))),
      (js "description", Json.str content),
      (js "analysis", Json.obj [
        (js "colors", Json.arr [Json.str (js "Various")]),
        (js "objects", Json.arr [Json.str (js "Multiple objects")]),
        (js "mood", Json.str (js "Neutral")),
        (js "composition", Json.str (js "Standard"))])] ∧
    (content.length = 200 →
      (Server.parsedResponse content).getProp (js "altText") =
        some (Json.str (content.take 125 ++ js "...")) ∧
      (Server.parsedResponse content).getProp (js "description") =
        some (Json.str content)) := by
  have e : Server.parsedResponse content = _ :=
    (Server.parsedResponse_of_unparsable h).trans (Server.fallback_eq content)
  refine ⟨e, ?_⟩
  intro hl
  rw [e, Server.getProp_altText, Server.getProp_description, if_pos (by omega)]
  exact ⟨rfl, rfl⟩

/-- C4 on a reply of two hundred letters without braces. -/
theorem fallback_shape_witness :
    twoHundredLetters.length = 200 ∧ jsonMatch twoHundredLetters = none ∧
    (Server.parsedResponse twoHundredLetters).getProp (js "altText") =
      some (Json.str (List.replicate 125 0x61 ++ js "...")) ∧
    (Server.parsedResponse twoHundredLetters).getProp (js "description") =
      some (Json.str twoHundredLetters) :=
  ⟨by decide, by decide,
    ((fallback_shape twoHundredLetters (Or.inl (by decide))).2 (by decide)).1,
    ((fallback_shape twoHundredLetters (Or.inl (by decide))).2 (by decide)).2⟩

/-! ## Claim C5 -/

/-- C5 fails as stated: on a brace-free reply of two hundred letters the
altText of the fallback has 128 code units, so it is neither at most 125 long
nor an initial segment of the reply. -/
theorem fallback_altText_exceeds_limit :
    (¬ ∃ i j : Nat, i < j ∧ twoHundredLetters[i]? = some lbrace ∧
      twoHundredLetters[j]? = some rbrace) ∧
    ∀ a, (Server.parsedResponse twoHundredLetters).getProp (js "altText") = some (Json.str a) →
      ¬ (a <+: twoHundredLetters ∧ a.length ≤ 125) := by
  refine ⟨(jsonMatch_eq_none_iff _).mp (by decide), ?_⟩
  intro a ha
  have h : (Server.parsedResponse twoHundredLetters).getProp (js "altText") =
      some (Json.str (twoHundredLetters.take 125 ++ js "...")) := by decide
  rw [h] at ha
  have e : a = twoHundredLetters.take 125 ++ js "..." := by
    simp only [Option.some.injEq, Json.str.injEq] at ha
    exact ha.symm
  intro hh
  have hl : a.length = 128 := by rw [e]; decide
  omega

/-- C5, amended: for every reply string with no opening brace before a
closing brace, the server.js normalizer returns the fallback, whose
description equals the input verbatim and whose altText is the initial
segment of at most 125 code units of the input, followed by the three dots
exactly when the input is longer than 125. -/
theorem fallback_description_and_altText (content : JSString)
    (h : ¬ ∃ i j : Nat, i < j ∧ content[i]? = some lbrace ∧ content[j]? = some rbrace) :
    Server.parsedResponse content = Server.fallback content ∧
    (Server.parsedResponse content).getProp (js "description") = some (Json.str content) ∧
    (Server.parsedResponse content).getProp (js "altText") =
      some (Json.str
        (content.take 125 ++ (if 125 < content.length then js "..." else []))) ∧
    content.take 125 <+: content ∧ (content.take 125).length ≤ 125 := by
  have hn : jsonMatch content = none := (jsonMatch_eq_none_iff content).mpr h
  have e := Server.parsedResponse_of_unparsable (Or.inl hn)
  refine ⟨e, ?_, ?_, List.take_prefix 125 content, ?_⟩
  · rw [e, Server.fallback_eq, Server.getProp_description]
  · rw [e, Server.fallback_eq, Server.getProp_altText]
  · rw [List.length_take]
    omega

/-- C5, amended, on a short reply: the altText is the reply itself. -/
theorem fallback_description_and_altText_witness :
    (Server.parsedResponse (js "A cat.")).getProp (js "description") =
      some (Json.str (js "A cat.")) ∧
    (Server.parsedResponse (js "A cat.")).getProp (js "altText") =
      some (Json.str ((js "A cat.").take 125 ++
        (if 125 < (js "A cat.").length then js "..." else []))) :=
  ⟨(fallback_description_and_altText (js "A cat.")
      ((jsonMatch_eq_none_iff _).mp (by decide))).2.1,
    (fallback_description_and_altText (js "A cat.")
      ((jsonMatch_eq_none_iff _).mp (by decide))).2.2.1⟩

/-! ## Claim C6 -/

/-- C6 fails as stated: a reply whose altText and description are the
boolean `true` passes the structure check, and the successful response
carries them as they are, not as strings; a reply whose altText is a number
beyond the range of a double passes it too, and `res.json` sends that altText
as `null`. -/
theorem success_with_non_string_fields :
    (Server.handler sampleKey sampleRequest
      (replyWith (js "\x7b\"altText\":true,\"description\":true\x7d"))).response =
      ⟨200, some (successBody (Json.obj [(js "altText", Json.bool true),
        (js "description", Json.bool true)]))⟩ ∧
    (¬ ∃ s, (Json.obj [(js "altText", Json.bool true),
      (js "description", Json.bool true)]).getProp (js "altText") = some (Json.str s)) ∧
    (Server.handler sampleKey sampleRequest
      (replyWith (js "\x7b\"altText\":1e999,\"description\":\"b\"\x7d"))).response =
      ⟨200, some (successBody (Json.obj [(js "altText", Json.null),
        (js "description", Json.str (js "b"))]))⟩ := by
  refine ⟨by decide, ?_, by decide⟩
  rintro ⟨s, hs⟩
  rw [Server.getProp_altText] at hs
  cases hs

/-- C6, amended: for every upstream reply, whenever the server.js handler
produces a successful response with `data`, both `data.altText` and
`data.description` are present in the body sent, and neither of them is
`false`, a zero number or the empty string; in particular each of them that
is a string is non-empty. Either may be a value of another kind, `null`
included. -/
theorem success_fields_present (key : JSString) (req : Request)
    (post : OpenAIRequest → Upstream) (data : Json)
    (h : (Server.handler key req post).response = ⟨200, some (successBody data)⟩) :
    (∃ a, data.getProp (js "altText") = some a ∧ a ≠ Json.bool false ∧ a ≠ Json.str [] ∧
      ∀ n, a = Json.num n → n.roundsToZero = false) ∧
    (∃ d, data.getProp (js "description") = some d ∧ d ≠ Json.bool false ∧
      d ≠ Json.str [] ∧ ∀ n, d = Json.num n → n.roundsToZero = false) ∧
    (∀ s, data.getProp (js "altText") = some (Json.str s) → s ≠ []) ∧
    (∀ s, data.getProp (js "description") = some (Json.str s) → s ≠ []) := by
  obtain ⟨c, hdata, ha, hd⟩ := Server.handler_success_inv key req post data h
  have key1 : ∀ name, truthyProp ((Server.parsedResponse c).getProp name) = true →
      (∃ a, data.getProp name = some a ∧ a ≠ Json.bool false ∧ a ≠ Json.str [] ∧
        ∀ n, a = Json.num n → n.roundsToZero = false) ∧
      (∀ s, data.getProp name = some (Json.str s) → s ≠ []) := by
    intro name hp
    rw [hdata, getProp_wire]
    cases hq : (Server.parsedResponse c).getProp name with
    | none => rw [hq] at hp; cases hp
    | some a =>
      rw [hq] at hp
      have hw := wire_of_truthy a hp
      refine ⟨⟨a.wire, rfl, hw.1, hw.2.1, hw.2.2⟩, ?_⟩
      intro s hs hnil
      rw [Option.map_some', Option.some.injEq] at hs
      rw [hnil] at hs
      exact hw.2.1 hs
  exact ⟨(key1 _ ha).1, (key1 _ hd).1, (key1 _ ha).2, (key1 _ hd).2⟩

/-- C6, amended, on the sample result. -/
theorem success_fields_present_witness :
    (Server.handler sampleKey sampleRequest
      (replyWith (JSON.stringify sampleResult))).response =
      ⟨200, some (successBody sampleResult.toJson)⟩ ∧
    (∀ s, sampleResult.toJson.getProp (js "altText") = some (Json.str s) → s ≠ []) ∧
    (∀ s, sampleResult.toJson.getProp (js "description") = some (Json.str s) → s ≠ []) :=
  ⟨by decide,
    (success_fields_present sampleKey sampleRequest (replyWith (JSON.stringify sampleResult))
      sampleResult.toJson (by decide)).2.2.1,
    (success_fields_present sampleKey sampleRequest (replyWith (JSON.stringify sampleResult))
      sampleResult.toJson (by decide)).2.2.2⟩

/-! ## Claim C7 -/

/-- C7, the code at the failing input: a reply that is a JSON object with
altText and description only passes the structure check, and the successful
response carries no `analysis` at all. -/
theorem success_without_analysis :
    (Server.handler sampleKey sampleRequest
      (replyWith (lbrace :: smallObjectBody ++ [rbrace]))).response =
      ⟨200, some (successBody smallObject)⟩ ∧
    smallObject.getProp (js "analysis") = none := by
  decide

/-! ## Claim C8 -/

/-- C8 fails as stated: the empty reply has no brace-delimited substring, its
fallback has empty altText and description, the structure check throws, and
the handler answers with status 500. -/
theorem empty_reply_is_rejected :
    jsonMatch [] = none ∧
    Server.parsedResponse [] = Server.fallback [] ∧
    (Server.handler sampleKey sampleRequest (replyWith [])).response =
      ⟨500, some (Json.obj [(js "error", Json.str (js "Internal server error")),
        (js "details", Json.str (js "Something went wrong processing your request"))])⟩ := by
  decide

/-- C8, amended: for every non-empty reply string that has no brace-delimited
substring or whose brace-delimited substring fails to parse, the server.js
normalization degrades to the fallback result and the handler answers with a
successful response carrying it. -/
theorem unparsable_reply_succeeds (key : JSString) (req : Request) (file : UploadedFile)
    (post : OpenAIRequest → Upstream) (content : JSString)
    (hne : content ≠ [])
    (h : jsonMatch content = none ∨
      ∃ m, jsonMatch content = some m ∧ JSON.parse m = none)
    (hfile : req.file = some file)
    (hreply : post (Server.openAIRequest key file) = Upstream.reply content) :
    Server.parsedResponse content = Server.fallback content ∧
    (Server.handler key req post).response =
      ⟨200, some (successBody (Server.fallback content))⟩ := by
  have e := Server.parsedResponse_of_unparsable h
  refine ⟨e, ?_⟩
  obtain ⟨c, t, rfl⟩ : ∃ c t, content = c :: t := by
    cases content with
    | nil => exact absurd rfl hne
    | cons c t => exact ⟨c, t, rfl⟩
  have ha : truthyProp ((Server.parsedResponse (c :: t)).getProp (js "altText")) = true := by
    rw [e, Server.fallback_eq, Server.getProp_altText]
    rfl
  have hd : truthyProp ((Server.parsedResponse (c :: t)).getProp (js "description")) = true := by
    rw [e, Server.fallback_eq, Server.getProp_description]
    rfl
  rw [Server.handler_reply key req file post _ hfile hreply, Server.respond_ok ha hd, e,
    Server.fallback_wire]

/-- C8, amended, on a reply in plain prose and on one whose braces hold no
JSON. -/
theorem unparsable_reply_succeeds_witness :
    (Server.handler sampleKey sampleRequest (replyWith (js "A cat on a mat."))).response =
      ⟨200, some (successBody (Server.fallback (js "A cat on a mat.")))⟩ ∧
    (Server.handler sampleKey sampleRequest (replyWith (js "A \x7bcat\x7d."))).response =
      ⟨200, some (successBody (Server.fallback (js "A \x7bcat\x7d.")))⟩ :=
  ⟨(unparsable_reply_succeeds sampleKey sampleRequest sampleFile
      (replyWith (js "A cat on a mat.")) (js "A cat on a mat.") (by decide)
      (Or.inl (by decide)) rfl rfl).2,
    (unparsable_reply_succeeds sampleKey sampleRequest sampleFile
      (replyWith (js "A \x7bcat\x7d.")) (js "A \x7bcat\x7d.") (by decide)
      (Or.inr ⟨js "\x7bcat\x7d", by decide, by decide⟩) rfl rfl).2⟩

/-! ## Claim C9 -/

/-- C9 fails as stated: for an upstream status outside the table whose error
message is the empty string, the handler of api/analyze-image.js falls back to
the default text, while the table puts the (empty) upstream message after the
lead. -/
theorem api_empty_message_takes_default :
    Api.statusAndError (Api.errorResponse ⟨js "Request failed", some ⟨503, some []⟩, none⟩) =
      some (500, js "OpenAI API error: OpenAI API error") ∧
    Api.classificationTable ⟨js "Request failed", some ⟨503, some []⟩, none⟩ =
      (500, js "OpenAI API error: ") ∧
    Api.statusAndError (Api.errorResponse ⟨js "Request failed", some ⟨503, some []⟩, none⟩) ≠
      some (Api.classificationTable ⟨js "Request failed", some ⟨503, some []⟩, none⟩) := by
  decide

/-- C9, amended: the error mapping of api/analyze-image.js equals the
classification table for every failure whose upstream error message is absent
or non-empty; an empty upstream message is treated like an absent one. So with
an upstream response, 401, 429 and 400 give their fixed pairs and any other
status gives 500 with the lead followed by the non-empty upstream message or
else the default; with no upstream response ECONNABORTED gives 408 and
everything else 500. -/
theorem api_error_mapping (error : JsError) :
    ((∀ r, error.response = some r → r.message ≠ some []) →
      Api.statusAndError (Api.errorResponse error) = some (Api.classificationTable error)) ∧
    (∀ r, error.response = some r → r.message = some [] →
      Api.statusAndError (Api.errorResponse error) =
        some (Api.classificationTable ⟨error.message, some ⟨r.status, none⟩, error.code⟩)) := by
  obtain ⟨msg, response, code⟩ := error
  cases response with
  | none =>
    refine ⟨fun _ => ?_, fun r hr => by cases hr⟩
    simp only [Api.errorResponse, Api.classificationTable]
    split_ifs <;> rfl
  | some r =>
    obtain ⟨status, message⟩ := r
    constructor
    · intro hne
      have hm : message ≠ some [] := hne _ rfl
      simp only [Api.errorResponse, Api.classificationTable]
      split_ifs with h1 h2 h3
      · rfl
      · rfl
      · rfl
      · cases message with
        | none => rfl
        | some m =>
          have : m ≠ [] := fun e => hm (by rw [e])
          simp only [Api.statusAndError, Json.getProp, List.find?, decide_True, Option.map_some',
            ne_eq, this, not_false_eq_true, if_true]
    · intro r hr hmsg
      cases hr
      simp only at hmsg
      subst hmsg
      simp only [Api.errorResponse, Api.classificationTable]
      split_ifs with h1 h2 h3 h4
      · rfl
      · rfl
      · rfl
      · exact absurd rfl h4
      · rfl

/-- C9, amended, on a rate-limit failure and on a time-out. -/
theorem api_error_mapping_witness :
    Api.statusAndError (Api.errorResponse ⟨js "Request failed", some ⟨429, none⟩, none⟩) =
      some (429, js "Rate limit exceeded") ∧
    Api.statusAndError
        (Api.errorResponse ⟨js "timeout of 30000ms exceeded", none, some (js "ECONNABORTED")⟩) =
      some (408, js "Request timeout") :=
  ⟨(api_error_mapping ⟨js "Request failed", some ⟨429, none⟩, none⟩).1 (by decide),
    (api_error_mapping ⟨js "timeout of 30000ms exceeded", none, some (js "ECONNABORTED")⟩).1
      (by decide)⟩

/-! ## Claim C10 -/

/-- C10 fails as stated: an upstream status that is none of 401, 429, 400 is
passed on unchanged by server.js; upstream 503 gives client status 503, not
500. -/
theorem server_passes_status_through :
    (Server.handler sampleKey sampleRequest
      (rejectWith ⟨js "Request failed", some ⟨503, none⟩, none⟩)).response =
      ⟨503, some (Json.obj [(js "error", Json.str (js "AI service error")),
        (js "details", Json.str (js "AI service error"))])⟩ ∧
    (Server.handler sampleKey sampleRequest
      (rejectWith ⟨js "Request failed", some ⟨503, none⟩, none⟩)).response.status ≠ 500 := by
  decide

/-- C10, amended: in server.js, for every failed external call that carries an
upstream HTTP response, the client status is the upstream status itself: 401
when it is 401, 429 when it is 429, 400 when it is 400, and for any other
upstream HTTP error status that same status. -/
theorem server_status_is_upstream_status (key : JSString) (req : Request)
    (file : UploadedFile) (post : OpenAIRequest → Upstream) (error : JsError)
    (r : UpstreamResponse)
    (hfile : req.file = some file)
    (hcall : post (Server.openAIRequest key file) = Upstream.rejected error)
    (hresp : error.response = some r) :
    (Server.handler key req post).response.status = r.status ∧
    (r.status = 401 → (Server.handler key req post).response.status = 401) ∧
    (r.status = 429 → (Server.handler key req post).response.status = 429) ∧
    (r.status = 400 → (Server.handler key req post).response.status = 400) := by
  have h : (Server.handler key req post).response.status = r.status := by
    rw [Server.handler_rejected key req file post error hfile hcall]
    simp only [Server.errorResponse, hresp]
  exact ⟨h, fun e => h.trans e, fun e => h.trans e, fun e => h.trans e⟩

/-- C10, amended, on an upstream 401. -/
theorem server_status_is_upstream_status_witness :
    (Server.handler sampleKey sampleRequest
      (rejectWith ⟨js "Request failed", some ⟨401, none⟩, none⟩)).response.status = 401 :=
  (server_status_is_upstream_status sampleKey sampleRequest sampleFile
    (rejectWith ⟨js "Request failed", some ⟨401, none⟩, none⟩)
    ⟨js "Request failed", some ⟨401, none⟩, none⟩ ⟨401, none⟩ rfl rfl rfl).2.1 rfl

/-! ## Claim C11 -/

/-- C11, the code at the failing input: on an upstream 401 whose error message
quotes the key, server.js puts that message into `details`, so the body sent
to the client contains the credential, and two runs that differ only in the
credential get different bodies. -/
theorem unauthorized_body_follows_upstream :
    (Server.handler (js "sk-one") sampleRequest quotingUpstream).response =
      ⟨401, some (Json.obj [(js "error", Json.str (js "AI service error")),
        (js "details", Json.str (js "Incorrect API key provided: sk-one"))])⟩ ∧
    (Server.handler (js "sk-two") sampleRequest quotingUpstream).response =
      ⟨401, some (Json.obj [(js "error", Json.str (js "AI service error")),
        (js "details", Json.str (js "Incorrect API key provided: sk-two"))])⟩ ∧
    (Server.handler (js "sk-one") sampleRequest quotingUpstream).response.body ≠
      (Server.handler (js "sk-two") sampleRequest quotingUpstream).response.body ∧
    Api.errorResponse ⟨js "Request failed with status code 401",
      some ⟨401, some (js "Incorrect API key provided: sk-one")⟩, none⟩ =
      ⟨401, some (Json.obj [(js "error", Json.str (js "Invalid API key"))])⟩ := by
  decide

/-! ## Claim C12 -/

/-- C12: in server.js, for every failure that carries no upstream response,
code ECONNABORTED gives client status 408 with error `Request timeout`; every
other such failure, the `Invalid response structure from OpenAI` failure of
the structure check included, gives status 500 with the fixed body
(`Internal server error`, `Something went wrong processing your request`),
whatever the message of the failure; so does the TypeError on a reply without
string content (no message in the body, or a content that is not a string). -/
theorem local_failure_mapping (key : JSString) (req : Request) (file : UploadedFile)
    (post : OpenAIRequest → Upstream) (hfile : req.file = some file) :
    (∀ error, post (Server.openAIRequest key file) = Upstream.rejected error →
      error.response = none → error.code = some (js "ECONNABORTED") →
      (Server.handler key req post).response =
        ⟨408, some (Json.obj [(js "error", Json.str (js "Request timeout")),
          (js "details", Json.str (js "The AI service took too long to respond"))])⟩) ∧
    (∀ error, post (Server.openAIRequest key file) = Upstream.rejected error →
      error.response = none → error.code ≠ some (js "ECONNABORTED") →
      (Server.handler key req post).response =
        ⟨500, some (Json.obj [(js "error", Json.str (js "Internal server error")),
          (js "details",
            Json.str (js "Something went wrong processing your request"))])⟩) ∧
    (∀ content, post (Server.openAIRequest key file) = Upstream.reply content →
      (truthyProp ((Server.parsedResponse content).getProp (js "altText")) = false ∨
        truthyProp ((Server.parsedResponse content).getProp (js "description")) = false) →
      Server.respond content =
        Except.error ⟨js "Invalid response structure from OpenAI", none, none⟩ ∧
      (Server.handler key req post).response =
        ⟨500, some (Json.obj [(js "error", Json.str (js "Internal server error")),
          (js "details",
            Json.str (js "Something went wrong processing your request"))])⟩) ∧
    (post (Server.openAIRequest key file) = Upstream.malformed →
      (Server.handler key req post).response =
        ⟨500, some (Json.obj [(js "error", Json.str (js "Internal server error")),
          (js "details",
            Json.str (js "Something went wrong processing your request"))])⟩) ∧
    (∀ content, post (Server.openAIRequest key file) = Upstream.nonString content →
      (∀ s, content ≠ some (Json.str s)) →
      (Server.handler key req post).response =
        ⟨500, some (Json.obj [(js "error", Json.str (js "Internal server error")),
          (js "details",
            Json.str (js "Something went wrong processing your request"))])⟩) := by
  refine ⟨?_, ?_, ?_, ?_, ?_⟩
  rotate_left 3
  · intro hcall
    simp only [Server.handler, hfile, hcall, Server.afterCall]
    rfl
  · intro content hcall hns
    have ha : Server.afterCall (Upstream.nonString content) = Except.error typeError := by
      cases content with
      | none => rfl
      | some w =>
        cases w with
        | str s => exact absurd rfl (hns s)
        | null => rfl
        | bool b => rfl
        | num n => rfl
        | arr xs => rfl
        | obj ps => rfl
    simp only [Server.handler, hfile, hcall, ha]
    rfl
  · intro error hcall hnone hcode
    rw [Server.handler_rejected key req file post error hfile hcall]
    simp only [Server.errorResponse, hnone, hcode, if_true]
  · intro error hcall hnone hcode
    rw [Server.handler_rejected key req file post error hfile hcall]
    simp only [Server.errorResponse, hnone, hcode, if_false]
  · intro content hcall hbad
    have hr : Server.respond content =
        Except.error ⟨js "Invalid response structure from OpenAI", none, none⟩ := by
      unfold Server.respond
      rcases hbad with h | h <;> simp [h]
    refine ⟨hr, ?_⟩
    rw [Server.handler_reply key req file post content hfile hcall, hr]
    rfl

/-- C12 on a time-out, on a network failure and on a reply whose altText is
empty. -/
theorem local_failure_mapping_witness :
    (Server.handler sampleKey sampleRequest (rejectWith
      ⟨js "timeout of 30000ms exceeded", none, some (js "ECONNABORTED")⟩)).response =
      ⟨408, some (Json.obj [(js "error", Json.str (js "Request timeout")),
        (js "details", Json.str (js "The AI service took too long to respond"))])⟩ ∧
    (Server.handler sampleKey sampleRequest (rejectWith
      ⟨js "getaddrinfo ENOTFOUND api.openai.com", none, some (js "ENOTFOUND")⟩)).response =
      ⟨500, some (Json.obj [(js "error", Json.str (js "Internal server error")),
        (js "details", Json.str (js "Something went wrong processing your request"))])⟩ ∧
    (Server.handler sampleKey sampleRequest
      (replyWith (js "\x7b\"altText\":\"\",\"description\":\"b\"\x7d"))).response =
      ⟨500, some (Json.obj [(js "error", Json.str (js "Internal server error")),
        (js "details", Json.str (js "Something went wrong processing your request"))])⟩ :=
  ⟨(local_failure_mapping sampleKey sampleRequest sampleFile _ rfl).1 _ rfl rfl rfl,
    (local_failure_mapping sampleKey sampleRequest sampleFile _ rfl).2.1 _ rfl rfl
      (by decide),
    ((local_failure_mapping sampleKey sampleRequest sampleFile _ rfl).2.2.1 _ rfl
      (Or.inl (by decide))).2⟩

/-! ## Claim C13 -/

/-- C13: for every request header map, the header map that server.js logs has
`Bearer [HIDDEN]` in place of the authorization value whenever the request
carries an authorization credential (a non-empty value), agrees with the
request on every other header, and the header map of the request itself is
left unchanged. -/
theorem logged_headers_are_redacted (key : JSString) (req : Request)
    (post : OpenAIRequest → Upstream) :
    ∃ logged, (Server.handler key req post).loggedHeaders = some logged ∧
      logged = (Server.sanitizeHeaders req.headers).sanitizedHeaders ∧
      (∀ v, headerValue req.headers (js "authorization") = some v → v ≠ [] →
        headerValue logged (js "authorization") = some (js "Bearer [HIDDEN]")) ∧
      (∀ name, name ≠ js "authorization" →
        headerValue logged name = headerValue req.headers name) ∧
      logged.map (fun kv => kv.1) = req.headers.map (fun kv => kv.1) ∧
      (Server.sanitizeHeaders req.headers).requestHeaders = req.headers := by
  refine ⟨Server.sanitizedHeaders req.headers, Server.handler_loggedHeaders key req post,
    (Server.sanitizeHeaders_sanitizedHeaders _).symm, ?_, ?_, ?_,
    Server.sanitizeHeaders_requestHeaders _⟩
  · intro v hv hne
    have hf : ∃ kv, req.headers.find? (fun kv => kv.1 = js "authorization") = some kv ∧
        kv.2 = v := by
      unfold headerValue at hv
      cases hfind : req.headers.find? (fun kv => kv.1 = js "authorization") with
      | none => rw [hfind] at hv; cases hv
      | some kv =>
        rw [hfind] at hv
        exact ⟨kv, rfl, Option.some.inj hv⟩
    obtain ⟨kv, hfind, hkv⟩ := hf
    have hne2 : kv.2 ≠ [] := by rw [hkv]; exact hne
    simp only [Server.sanitizedHeaders, hfind, ne_eq, hne2, not_false_eq_true, if_true]
    rw [headerValue_map_authorization, if_pos rfl, hv]
    rfl
  · intro name hname
    unfold Server.sanitizedHeaders
    split
    · split_ifs
      · rw [headerValue_map_authorization, if_neg hname]
      · rfl
    · rfl
  · unfold Server.sanitizedHeaders
    split
    · split_ifs
      · rw [List.map_map]
        apply List.map_congr_left
        intro kv _
        simp only [Function.comp]
        split_ifs <;> rfl
      · rfl
    · rfl

/-- C13 on a request with a bearer credential among three headers. -/
theorem logged_headers_are_redacted_witness :
    (Server.handler sampleKey emptyRequest (replyWith [])).loggedHeaders =
      some [(js "host", js "localhost:3000"), (js "authorization", js "Bearer [HIDDEN]"),
        (js "accept", js "*/*")] ∧
    ∃ logged, (Server.handler sampleKey emptyRequest (replyWith [])).loggedHeaders =
        some logged ∧
      logged = (Server.sanitizeHeaders emptyRequest.headers).sanitizedHeaders ∧
      (∀ v, headerValue emptyRequest.headers (js "authorization") = some v → v ≠ [] →
        headerValue logged (js "authorization") = some (js "Bearer [HIDDEN]")) ∧
      (∀ name, name ≠ js "authorization" →
        headerValue logged name = headerValue emptyRequest.headers name) ∧
      logged.map (fun kv => kv.1) = emptyRequest.headers.map (fun kv => kv.1) ∧
      (Server.sanitizeHeaders emptyRequest.headers).requestHeaders = emptyRequest.headers :=
  ⟨by decide, logged_headers_are_redacted sampleKey emptyRequest (replyWith [])⟩

/-! ## Claim C14 -/

/-- C14 fails as stated: a POST request whose only file is under the field
name `file` carries no file in the image field, yet multer refuses it; the
handler of api/analyze-image.js answers 500 from its catch block, and in
server.js the error-handling middleware answers 500. -/
theorem misnamed_file_field_is_answered_500 :
    (∀ part ∈ misnamedIncoming.files, part.fieldname ≠ js "image") ∧
    misnamedIncoming.method = js "POST" ∧
    (Api.serve (some sampleKey) misnamedIncoming (replyWith [])).response =
      ⟨500, some (Json.obj [(js "error", Json.str (js "Internal server error"))])⟩ ∧
    (Server.route sampleKey misnamedIncoming (replyWith [])).response =
      ⟨500, some (Json.obj [(js "error", Json.str (js "Internal server error")),
        (js "details", Json.str (js "Something went wrong on the server"))])⟩ := by
  decide

/-- C14, amended: in both handlers, for every POST request whose body multer
accepts and that carries no file at all (and, for api/analyze-image.js, with
the credential configured), the response is status 400 with error
`No image file provided` and no upstream request is built or sent. A POST
request without a file in the image field that multer refuses, because it
carries files under other field names or because its body is defective, is
answered with status 500 (`Internal server error`), again without any
upstream request. -/
theorem request_without_image_file (incoming : Incoming) (post : OpenAIRequest → Upstream)
    (hno : ∀ part ∈ incoming.files, part.fieldname ≠ js "image") :
    (incoming.defect = none → incoming.files = [] →
      (∀ key,
        (Server.route key incoming post).response =
          ⟨400, some (Json.obj [(js "error", Json.str (js "No image file provided"))])⟩ ∧
        (Server.route key incoming post).upstreamCalls = []) ∧
      (∀ key, incoming.method = js "POST" → key ≠ [] →
        (Api.serve (some key) incoming post).response =
          ⟨400, some (Json.obj [(js "error", Json.str (js "No image file provided"))])⟩ ∧
        (Api.serve (some key) incoming post).upstreamCalls = [])) ∧
    (incoming.defect ≠ none ∨ incoming.files ≠ [] →
      (∀ key,
        (Server.route key incoming post).response =
          ⟨500, some (Json.obj [(js "error", Json.str (js "Internal server error")),
            (js "details", Json.str (js "Something went wrong on the server"))])⟩ ∧
        (Server.route key incoming post).upstreamCalls = []) ∧
      (∀ key, incoming.method = js "POST" → key ≠ [] →
        (Api.serve (some key) incoming post).response =
          ⟨500, some (Json.obj [(js "error", Json.str (js "Internal server error"))])⟩ ∧
        (Api.serve (some key) incoming post).upstreamCalls = [])) := by
  have h1 : ¬ js "POST" = js "OPTIONS" := by decide
  constructor
  · intro hdef hnil
    have hu : parseMultipartData incoming = Except.ok none := by
      rw [parseMultipartData, hdef, hnil]
      rfl
    refine ⟨fun key => ?_, fun key hmethod hkey => ?_⟩
    · simp only [Server.route, hu, Server.handler]
      exact ⟨trivial, trivial⟩
    · simp only [Api.serve, Api.handler, hu, hmethod, h1, if_false, ne_eq, not_true_eq_false,
        hkey]
      exact ⟨trivial, trivial⟩
  · intro hbad
    have hu : ∃ e, parseMultipartData incoming = Except.error e ∧
        Api.errorResponse e =
          ⟨500, some (Json.obj [(js "error", Json.str (js "Internal server error"))])⟩ := by
      cases hdef : incoming.defect with
      | some d =>
        refine ⟨d.error, by rw [parseMultipartData, hdef], ?_⟩
        cases d <;> decide
      | none =>
        rcases hbad with hbad | hbad
        · exact absurd hdef hbad
        · cases hfiles : incoming.files with
          | nil => exact absurd hfiles hbad
          | cons part rest =>
            have hp : part.fieldname ≠ js "image" := hno part (by rw [hfiles]; simp)
            refine ⟨⟨js "Unexpected field", none, some (js "LIMIT_UNEXPECTED_FILE")⟩, ?_,
              by decide⟩
            rw [parseMultipartData, hdef, hfiles]
            simp only [uploadSingle, ne_eq, hp, not_false_eq_true, if_true]
    obtain ⟨e, hu, he⟩ := hu
    refine ⟨fun key => ?_, fun key hmethod hkey => ?_⟩
    · simp only [Server.route, hu, Server.errorMiddleware]
      exact ⟨trivial, trivial⟩
    · simp only [Api.serve, Api.handler, hu, hmethod, h1, if_false, ne_eq, not_true_eq_false,
        hkey, he]
      exact ⟨trivial, trivial⟩

/-- C14, amended, on a request without files and on one with a misnamed file
field. -/
theorem request_without_image_file_witness :
    ((Server.route sampleKey bareIncoming (replyWith [])).response =
        ⟨400, some (Json.obj [(js "error", Json.str (js "No image file provided"))])⟩ ∧
      (Server.route sampleKey bareIncoming (replyWith [])).upstreamCalls = []) ∧
    ((Api.serve (some sampleKey) bareIncoming (replyWith [])).response =
        ⟨400, some (Json.obj [(js "error", Json.str (js "No image file provided"))])⟩ ∧
      (Api.serve (some sampleKey) bareIncoming (replyWith [])).upstreamCalls = []) ∧
    ((Api.serve (some sampleKey) misnamedIncoming (replyWith [])).response =
        ⟨500, some (Json.obj [(js "error", Json.str (js "Internal server error"))])⟩ ∧
      (Api.serve (some sampleKey) misnamedIncoming (replyWith [])).upstreamCalls = []) :=
  ⟨((request_without_image_file bareIncoming (replyWith []) (by decide)).1 rfl rfl).1
      sampleKey,
    ((request_without_image_file bareIncoming (replyWith []) (by decide)).1 rfl rfl).2
      sampleKey rfl (by decide),
    ((request_without_image_file misnamedIncoming (replyWith []) (by decide)).2
      (Or.inr (by decide))).2 sampleKey rfl (by decide)⟩

/-! ## Claim C15 -/

/-- C15 fails as stated: server.js does not look at the declared content type;
for an uploaded `text/plain` file it builds the data URI with that type,
issues the upstream call and answers with the result. -/
theorem non_image_file_is_forwarded :
    startsWith textFile.mimetype (js "image/") = false ∧
    (Server.handler sampleKey textRequest
      (replyWith (JSON.stringify sampleResult))).upstreamCalls =
      [Server.openAIRequest sampleKey textFile] ∧
    (Server.openAIRequest sampleKey textFile).imageUrl = js "data:text/plain;base64,aGk=" ∧
    (Server.handler sampleKey textRequest
      (replyWith (JSON.stringify sampleResult))).response =
      ⟨200, some (successBody sampleResult.toJson)⟩ := by
  decide

/-- C15, amended: the server.js handler does not check the declared content
type: for every uploaded file, whatever its declared type, it builds the
upstream request with that type in the data URI and issues exactly that one
upstream call. A file whose declared type does not begin with `image/` is
turned away only in the client, where `handleFileSelect` and `handleDrop`
show an error and leave the state otherwise as it was, so that no upload
follows. -/
theorem file_type_is_checked_by_client_only :
    (∀ key req file post, req.file = some file →
      (Server.handler key req post).upstreamCalls = [Server.openAIRequest key file] ∧
      (Server.openAIRequest key file).imageUrl =
        js "data:" ++ file.mimetype ++ js ";base64," ++ base64 file.buffer) ∧
    (∀ st file rest, startsWith file.type (js "image/") = false →
      handleFileSelect st (some file) =
        { st with errors := st.errors ++ [js "Please select a valid image file."] } ∧
      handleDrop st (file :: rest) =
        { st with errors := st.errors ++ [js "Please drop a valid image file."] }) := by
  constructor
  · intro key req file post hfile
    refine ⟨?_, rfl⟩
    simp only [Server.handler, hfile]
    cases Server.afterCall (post (Server.openAIRequest key file)) <;> rfl
  · intro st file rest h
    simp only [handleFileSelect, handleDrop, h, showError]
    exact ⟨rfl, rfl⟩

/-- C15, amended, on the text file: the server forwards it, the client turns
it away. -/
theorem file_type_is_checked_by_client_only_witness :
    (Server.handler sampleKey textRequest (replyWith [])).upstreamCalls =
      [Server.openAIRequest sampleKey textFile] ∧
    (handleFileSelect initialState
        (some ⟨js "notes.txt", js "text/plain", 2, js "data:text/plain;base64,aGk="⟩)).imageFile =
      none ∧
    generateCaption (handleFileSelect initialState
        (some ⟨js "notes.txt", js "text/plain", 2, js "data:text/plain;base64,aGk="⟩)) =
      CaptionAction.refuse :=
  ⟨(file_type_is_checked_by_client_only.1 sampleKey textRequest textFile (replyWith [])
      rfl).1,
    by rw [(file_type_is_checked_by_client_only.2 initialState
      ⟨js "notes.txt", js "text/plain", 2, js "data:text/plain;base64,aGk="⟩ []
      (by decide)).1]; rfl,
    by rw [(file_type_is_checked_by_client_only.2 initialState
      ⟨js "notes.txt", js "text/plain", 2, js "data:text/plain;base64,aGk="⟩ []
      (by decide)).1]; rfl⟩

/-! ## Claim C16 -/

/-- C16 fails as stated: for a reply in plain prose the fallback of
api/analyze-image.js has the fixed altText `Image analysis completed` and its
own placeholder texts, and differs from the fallback of server.js. -/
theorem api_fallback_differs_from_server :
    jsonMatch (js "A cat.") = none ∧
    (Api.parsedResponse (js "A cat.")).getProp (js "altText") =
      some (Json.str (js "Image analysis completed")) ∧
    (Server.parsedResponse (js "A cat.")).getProp (js "altText") =
      some (Json.str (js "A cat.")) ∧
    Api.parsedResponse (js "A cat.") ≠ Server.parsedResponse (js "A cat.") := by
  decide

/-- C16, amended: in api/analyze-image.js, for every reply string that has no
brace-delimited substring or whose brace-delimited substring fails to parse,
the synthesized fallback has altText `Image analysis completed`, description
equal to the reply, and analysis with colors `Various`, objects
`Multiple objects detected`, mood `Analyzed` and composition
`Standard composition`; it agrees with the fallback that server.js produces
for the same reply in description and in colors. -/
theorem api_fallback_shape (aiContent : JSString)
    (h : jsonMatch aiContent = none ∨
      ∃ m, jsonMatch aiContent = some m ∧ JSON.parse m = none) :
    Api.parsedResponse aiContent = Json.obj [
      (js "altText", Json.str (js "Image analysis completed")),
      (js "description", Json.str aiContent),
      (js "analysis", Json.obj [
        (js "colors", Json.arr [Json.str (js "Various")]),
        (js "objects", Json.arr [Json.str (js "Multiple objects detected")]),
        (js "mood", Json.str (js "Analyzed")),
        (js "composition", Json.str (js "Standard composition"))])] ∧
    (Api.parsedResponse aiContent).getProp (js "description") =
      (Server.parsedResponse aiContent).getProp (js "description") ∧
    ((Api.parsedResponse aiContent).getProp (js "analysis")).bind
        (fun a => a.getProp (js "colors")) =
      ((Server.parsedResponse aiContent).getProp (js "analysis")).bind
        (fun a => a.getProp (js "colors")) := by
  have hs := Server.parsedResponse_of_unparsable h
  have ha : Api.parsedResponse aiContent = Api.fallback aiContent := by
    rcases h with h | ⟨m, hm, hp⟩
    · simp [Api.parsedResponse, h]
    · simp [Api.parsedResponse, hm, hp]
  rw [ha, hs, Server.fallback_eq]
  refine ⟨rfl, ?_, ?_⟩
  · rw [Server.getProp_description]
    rfl
  · rfl

/-- C16, amended, on a reply in plain prose. -/
theorem api_fallback_shape_witness :
    Api.parsedResponse (js "A cat.") = Json.obj [
      (js "altText", Json.str (js "Image analysis completed")),
      (js "description", Json.str (js "A cat.")),
      (js "analysis", Json.obj [
        (js "colors", Json.arr [Json.str (js "Various")]),
        (js "objects", Json.arr [Json.str (js "Multiple objects detected")]),
        (js "mood", Json.str (js "Analyzed")),
        (js "composition", Json.str (js "Standard composition"))])] :=
  (api_fallback_shape (js "A cat.") (Or.inl (by decide))).1

/-! ## Claim C17 -/

/-- C17, the code at the failing input: `processImageFile` assigns `imageFile`
before it checks the size. A small image is chosen, an image of eleven
megabytes is chosen and rejected while the reader of the first is still
loading, then that reader completes: now `selectedImage` and `imageFile` are
both set, `imageFile` is the rejected file, and `generateCaption` uploads
it. -/
theorem rejected_file_stays_in_imageFile :
    (processImageFile initialState largeImage).errors =
      [js "Image size should be less than 10MB."] ∧
    (processImageFile initialState largeImage).imageFile = some largeImage ∧
    (runClient initialState [ClientOp.processImageFile smallImage,
      ClientOp.processImageFile largeImage, ClientOp.readerLoad 0]).selectedImage =
      some smallImage.dataURL ∧
    (runClient initialState [ClientOp.processImageFile smallImage,
      ClientOp.processImageFile largeImage, ClientOp.readerLoad 0]).imageFile =
      some largeImage ∧
    generateCaption (runClient initialState [ClientOp.processImageFile smallImage,
      ClientOp.processImageFile largeImage, ClientOp.readerLoad 0]) =
      CaptionAction.upload largeImage ∧
    ¬ largeImage.size ≤ maxFileSize ∧
    ¬ UploadWithinLimit (runClient initialState [ClientOp.processImageFile smallImage,
      ClientOp.processImageFile largeImage, ClientOp.readerLoad 0]) := by
  refine ⟨by decide, by decide, by decide, by decide, by decide, by decide, ?_⟩
  intro h
  have := h smallImage.dataURL largeImage (by decide) (by decide) (by decide)
  exact absurd this (by decide)

end ImageCaption
